import Mathlib

/-!
Verification of the pyIslam calendrical and astronomical computation engine.

The development shallowly embeds the three source modules:
  * `hijri.py`    — Hijri date construction and validation,
  * `praytimes.py` — prayer-time configuration and solar computations,
  * `qiblah.py`   — Qiblah bearing computation.

The helper module `baselib.py` (Julian-day conversions, degree
trigonometry, equation of time) is not part of the provided sources; the
definitions that stand in for it are modelled from the specification and
say so in their doc comments.

Conventions: Python integers become `ℤ`/`ℕ`, Python floats in the purely
calendrical code become `ℚ`, floats in the solar/trigonometric code become
`ℝ`.  Fallible code (a Python `raise`) returns `Except`; partial
arithmetic (square root of a negative number, division by zero, both of
which raise at runtime in Python) returns `Option`.
-/

/-! ### The arithmetic (tabular) Hijri calendar

Modelled from the spec: `baselib.hijri_to_julian` and
`baselib.julian_to_hijri` are not among the provided sources.  The spec
describes them as the standard 30-year arithmetic Hijri cycle: a
closed-form formula from the triple to the Julian day, and an inverse that
adds the correction to the Julian day and then works by modular arithmetic
on the 30-year cycle (10631 days). -/

/-- Leap years of the 30-year arithmetic Hijri cycle
(the classical intercalation set 2,5,7,10,13,16,18,21,24,26,29). -/
def hijriLeap (y : ℕ) : Bool := (11 * y + 14) % 30 < 11

/-- Length of a Hijri year in days (355 in leap years, else 354). -/
def hijriYearLen (y : ℕ) : ℕ := if hijriLeap y then 355 else 354

/-- Length of a Hijri month: odd months have 30 days, even months 29,
and the 12th month has 30 in leap years. -/
def hijriMonthLen (y m : ℕ) : ℕ :=
  if m = 12 then (if hijriLeap y then 30 else 29)
  else if m % 2 = 1 then 30 else 29

/-- Number of leap years among the Hijri years `0 … y-1`. -/
def leapsBefore : ℕ → ℕ
  | 0 => 0
  | y + 1 => leapsBefore y + (if hijriLeap y then 1 else 0)

/-- Days from the start of Hijri year 0 to the start of year `y`. -/
def hijriDaysBeforeYear (y : ℕ) : ℕ := 354 * y + leapsBefore y

/-- Days from the start of a Hijri year to the start of month `m`
(months 1–12; the closed form `30(m-1) - (m-1)/2` of the spec's
alternating 30/29 pattern). -/
def hijriDaysBeforeMonth (m : ℕ) : ℕ := 30 * (m - 1) - (m - 1) / 2

/-- Julian day number of the start of Hijri year 0 in the arithmetic
calendar (so that 1 Muharram of year 1 falls on JDN 1948440). -/
def hijriEpochJD : ℕ := 1948086

/-- Modelled from the spec: `baselib.hijri_to_julian`, the closed-form
arithmetic formula sending a Hijri (year, month, day) triple to its
Julian day number. -/
def hijriToJulian (y m d : ℕ) : ℕ :=
  hijriEpochJD + hijriDaysBeforeYear y + hijriDaysBeforeMonth m + (d - 1)

/-- Locate the year containing a day offset inside (a run of) the 30-year
cycle: walk at most `fuel` years forward from year `y`, consuming whole
year lengths. Returns the year and the remaining day-of-year offset. -/
def findYear : ℕ → ℕ → ℕ → ℕ × ℕ
  | 0, y, r => (y, r)
  | fuel + 1, y, r =>
    if r < hijriYearLen y then (y, r) else findYear fuel (y + 1) (r - hijriYearLen y)

/-- Locate the month containing a day-of-year offset: walk at most `fuel`
months forward from month `m` of year `y`.  Returns the month and the
remaining day offset within it. -/
def findMonth : ℕ → ℕ → ℕ → ℕ → ℕ × ℕ
  | 0, _, m, r => (m, r)
  | fuel + 1, y, m, r =>
    if r < hijriMonthLen y m then (m, r) else findMonth fuel y (m + 1) (r - hijriMonthLen y m)

/-- Modelled from the spec: `baselib.julian_to_hijri`.  Adds the
correction days to the Julian day, then derives the Hijri triple by
modular arithmetic on the 30-year cycle of 10631 days. -/
def julianToHijri (jd : ℤ) (correction : ℤ) : ℕ × ℕ × ℕ :=
  let n : ℕ := (jd + correction - (hijriEpochJD : ℤ)).toNat
  let cyc := n / 10631
  let r := n % 10631
  let yr := findYear 29 (30 * cyc) r
  let mo := findMonth 11 yr.1 1 yr.2
  (yr.1, mo.1, mo.2 + 1)

/-- The integer part of the standard proleptic-Gregorian to Julian-day
algorithm: all the floored terms, before the final shift by 1524.5. -/
def gregorianToJulianInt (y m d : ℤ) : ℤ :=
  let y2 : ℤ := if m < 3 then y - 1 else y
  let m2 : ℤ := if m < 3 then m + 12 else m
  let a : ℤ := y2.fdiv 100
  let b : ℤ := 2 - a + a.fdiv 4
  (1461 * (y2 + 4716)).fdiv 4 + (306001 * (m2 + 1)).fdiv 10000 + d + b

/-- Modelled from the spec: `baselib.gregorian_to_julian`, the standard
proleptic-Gregorian to Julian-day algorithm (integer arithmetic with the
conventional month/year shift for January and February); it maps
2000-01-01 to the reference epoch 2451544.5. -/
def gregorianToJulian (y m d : ℤ) : ℚ :=
  (gregorianToJulianInt y m d : ℚ) - 3049 / 2

/-- `HijriDate.get_hijri`: the Hijri triple of a Gregorian date under a
given correction (the Julian day is floored first, as Python's `floor`
does before the cycle arithmetic; `gregorianToJulian` is an integer
minus one half, so its floor is that integer minus 1525,
see `floor_gregorianToJulian`). -/
def getHijri (y m d : ℤ) (correction : ℤ) : ℕ × ℕ × ℕ :=
  julianToHijri (gregorianToJulianInt y m d - 1525) correction

theorem floor_gregorianToJulian (y m d : ℤ) :
    ⌊gregorianToJulian y m d⌋ = gregorianToJulianInt y m d - 1525 := by
  unfold gregorianToJulian
  rw [sub_eq_add_neg, add_comm, Int.floor_add_int]
  have h : ⌊(-(3049 / 2) : ℚ)⌋ = -1525 := by
    rw [Int.floor_eq_iff]
    norm_num
  rw [h]
  ring

/-- The Hijri month of a Gregorian date (used by the Ramadan test of
`Prayer._get_ishaa_time`). -/
def hijriMonthOf (y m d : ℤ) (correction : ℤ) : ℕ :=
  (getHijri y m d correction).2.1

/-- `HijriDate.__init__` (from `hijri.py`): validation of a (year, month,
day) triple.  The three checks are sequential; note that the source's
third check tests `month in range(1, 31)` — the variable `month`, not
`day` — before storing `day`. -/
def mkHijriDate (year month day : ℤ) : Except String (ℤ × ℤ × ℤ) :=
  if year < 0 then .error "year must be positive"
  else if ¬(1 ≤ month ∧ month ≤ 12) then .error "month should be bitween 1 and 12"
  else if ¬(1 ≤ month ∧ month ≤ 30) then .error "day should be bitween 1 and 30"
  else .ok (year, month, day)

/-! ### Round-trip of the arithmetic Hijri calendar -/

/-- Cumulative year lengths of `k` consecutive Hijri years starting at `y`
(the amounts `findYear` consumes). -/
def sumYearLen (y : ℕ) : ℕ → ℕ
  | 0 => 0
  | k + 1 => hijriYearLen y + sumYearLen (y + 1) k

/-- Cumulative month lengths of `k` consecutive months of year `y`
starting at month `m` (the amounts `findMonth` consumes). -/
def sumMonthLen (y m : ℕ) : ℕ → ℕ
  | 0 => 0
  | k + 1 => hijriMonthLen y m + sumMonthLen y (m + 1) k

theorem hijriLeap_add_30 (y : ℕ) : hijriLeap (y + 30) = hijriLeap y := by
  unfold hijriLeap
  have h : 11 * (y + 30) + 14 = (11 * y + 14) + 11 * 30 := by ring
  rw [h, Nat.add_mul_mod_self_right]

theorem hijriYearLen_add_30 (y : ℕ) : hijriYearLen (y + 30) = hijriYearLen y := by
  simp [hijriYearLen, hijriLeap_add_30]

theorem leapsBefore_add_30 (y : ℕ) : leapsBefore (y + 30) = leapsBefore y + 11 := by
  induction y with
  | zero => decide
  | succ y ih =>
    have h : y + 1 + 30 = (y + 30) + 1 := by omega
    rw [h]
    show leapsBefore (y + 30) + _ = _
    rw [ih, hijriLeap_add_30]
    show leapsBefore y + 11 + _ = leapsBefore y + (if hijriLeap y then 1 else 0) + 11
    omega

theorem hijriDaysBeforeYear_succ (y : ℕ) :
    hijriDaysBeforeYear (y + 1) = hijriDaysBeforeYear y + hijriYearLen y := by
  show 354 * (y + 1) + (leapsBefore y + (if hijriLeap y then 1 else 0)) = _
  unfold hijriDaysBeforeYear hijriYearLen
  cases h : hijriLeap y <;> simp [h] <;> ring

theorem hijriDaysBeforeYear_cycle (q j : ℕ) :
    hijriDaysBeforeYear (30 * q + j) = 10631 * q + hijriDaysBeforeYear j := by
  induction q with
  | zero => simp
  | succ q ih =>
    have h : 30 * (q + 1) + j = (30 * q + j) + 30 := by ring
    rw [h]
    unfold hijriDaysBeforeYear at ih ⊢
    rw [leapsBefore_add_30]
    omega

theorem hijriDaysBeforeYear_le (a b : ℕ) (h : a ≤ b) :
    hijriDaysBeforeYear a ≤ hijriDaysBeforeYear b := by
  obtain ⟨k, rfl⟩ := Nat.exists_eq_add_of_le h
  clear h
  induction k with
  | zero => simp
  | succ k ih =>
    have h1 := hijriDaysBeforeYear_succ (a + k)
    have h2 : a + (k + 1) = (a + k) + 1 := by omega
    rw [h2, h1]
    omega

theorem sumYearLen_eq (k : ℕ) : ∀ y : ℕ,
    hijriDaysBeforeYear y + sumYearLen y k = hijriDaysBeforeYear (y + k) := by
  induction k with
  | zero => intro y; simp [sumYearLen]
  | succ k ih =>
    intro y
    show hijriDaysBeforeYear y + (hijriYearLen y + sumYearLen (y + 1) k) = _
    have h1 := hijriDaysBeforeYear_succ y
    have h2 := ih (y + 1)
    have h3 : y + (k + 1) = y + 1 + k := by omega
    rw [h3]
    omega

theorem findYear_spec (k : ℕ) : ∀ (fuel y s : ℕ), k ≤ fuel →
    s < hijriYearLen (y + k) →
    findYear fuel y (sumYearLen y k + s) = (y + k, s) := by
  induction k with
  | zero =>
    intro fuel y s _ hs
    simp only [sumYearLen, Nat.zero_add, Nat.add_zero] at *
    cases fuel with
    | zero => rfl
    | succ fuel => simp [findYear, hs]
  | succ k ih =>
    intro fuel y s hk hs
    cases fuel with
    | zero => omega
    | succ fuel =>
      show findYear (fuel + 1) y (hijriYearLen y + sumYearLen (y + 1) k + s) = _
      have hge : ¬ (hijriYearLen y + sumYearLen (y + 1) k + s < hijriYearLen y) := by omega
      rw [findYear, if_neg hge]
      have harg : hijriYearLen y + sumYearLen (y + 1) k + s - hijriYearLen y
          = sumYearLen (y + 1) k + s := by omega
      rw [harg]
      have hs2 : s < hijriYearLen (y + 1 + k) := by
        have h3 : y + 1 + k = y + (k + 1) := by omega
        rw [h3]; exact hs
      have := ih fuel (y + 1) s (by omega) hs2
      rw [this]
      have h3 : y + 1 + k = y + (k + 1) := by omega
      rw [h3]

theorem findMonth_spec (k : ℕ) : ∀ (fuel y m s : ℕ), k ≤ fuel →
    s < hijriMonthLen y (m + k) →
    findMonth fuel y m (sumMonthLen y m k + s) = (m + k, s) := by
  induction k with
  | zero =>
    intro fuel y m s _ hs
    simp only [sumMonthLen, Nat.zero_add, Nat.add_zero] at *
    cases fuel with
    | zero => rfl
    | succ fuel => simp [findMonth, hs]
  | succ k ih =>
    intro fuel y m s hk hs
    cases fuel with
    | zero => omega
    | succ fuel =>
      show findMonth (fuel + 1) y m (hijriMonthLen y m + sumMonthLen y (m + 1) k + s) = _
      have hge : ¬ (hijriMonthLen y m + sumMonthLen y (m + 1) k + s < hijriMonthLen y m) := by
        omega
      rw [findMonth, if_neg hge]
      have harg : hijriMonthLen y m + sumMonthLen y (m + 1) k + s - hijriMonthLen y m
          = sumMonthLen y (m + 1) k + s := by omega
      rw [harg]
      have hs2 : s < hijriMonthLen y (m + 1 + k) := by
        have h3 : m + 1 + k = m + (k + 1) := by omega
        rw [h3]; exact hs
      have := ih fuel y (m + 1) s (by omega) hs2
      rw [this]
      have h3 : m + 1 + k = m + (k + 1) := by omega
      rw [h3]

theorem hijriDaysBeforeMonth_eq (y m : ℕ) (h1 : 1 ≤ m) (h2 : m ≤ 12) :
    hijriDaysBeforeMonth m = sumMonthLen y 1 (m - 1) := by
  interval_cases m <;> simp [hijriDaysBeforeMonth, sumMonthLen, hijriMonthLen]

theorem dayOfYear_lt (y m d : ℕ) (hm1 : 1 ≤ m) (hm2 : m ≤ 12) (hd1 : 1 ≤ d)
    (hd2 : d ≤ hijriMonthLen y m) :
    hijriDaysBeforeMonth m + (d - 1) < hijriYearLen y := by
  unfold hijriMonthLen at hd2
  unfold hijriYearLen hijriDaysBeforeMonth
  interval_cases m <;> simp at hd2 <;> cases h : hijriLeap y <;> simp [h] at hd2 ⊢ <;> omega

theorem hijriYearLen_cycle (q j : ℕ) : hijriYearLen (30 * q + j) = hijriYearLen j := by
  induction q with
  | zero => simp
  | succ q ih =>
    have h : 30 * (q + 1) + j = (30 * q + j) + 30 := by ring
    rw [h, hijriYearLen_add_30, ih]

theorem hijriDaysBeforeYear_thirty : hijriDaysBeforeYear 30 = 10631 := by decide

/-- C2 (amended): for every Hijri date that actually exists in the
arithmetic calendar — year arbitrary non-negative, month 1–12, day between
1 and the length of that month — converting to the Julian day and back
with correction 0 returns exactly the original triple. -/
theorem hijri_julian_roundtrip (y m d : ℕ) (hm1 : 1 ≤ m) (hm2 : m ≤ 12) (hd1 : 1 ≤ d)
    (hd2 : d ≤ hijriMonthLen y m) :
    julianToHijri (hijriToJulian y m d) 0 = (y, m, d) := by
  have hn : ((hijriToJulian y m d : ℤ) + 0 - (hijriEpochJD : ℤ)).toNat
      = hijriDaysBeforeYear y + (hijriDaysBeforeMonth m + (d - 1)) := by
    unfold hijriToJulian
    push_cast
    omega
  have hs_lt : hijriDaysBeforeMonth m + (d - 1) < hijriYearLen y :=
    dayOfYear_lt y m d hm1 hm2 hd1 hd2
  obtain ⟨q, j, hj, hy⟩ : ∃ q j, j < 30 ∧ y = 30 * q + j :=
    ⟨y / 30, y % 30, Nat.mod_lt _ (by norm_num), (Nat.div_add_mod y 30).symm⟩
  subst hy
  set s := hijriDaysBeforeMonth m + (d - 1) with hs_def
  have hDy : hijriDaysBeforeYear (30 * q + j) = 10631 * q + hijriDaysBeforeYear j :=
    hijriDaysBeforeYear_cycle q j
  have hyl : hijriYearLen (30 * q + j) = hijriYearLen j := hijriYearLen_cycle q j
  have hrr : hijriDaysBeforeYear j + s < 10631 := by
    have h1 : hijriDaysBeforeYear j + hijriYearLen j = hijriDaysBeforeYear (j + 1) :=
      (hijriDaysBeforeYear_succ j).symm
    have h2 : hijriDaysBeforeYear (j + 1) ≤ hijriDaysBeforeYear 30 :=
      hijriDaysBeforeYear_le _ _ (by omega)
    have h3 := hijriDaysBeforeYear_thirty
    omega
  have hsum : sumYearLen (30 * q) j = hijriDaysBeforeYear j := by
    have h1 := sumYearLen_eq j (30 * q)
    have h2 := hijriDaysBeforeYear_cycle q j
    have h3 := hijriDaysBeforeYear_cycle q 0
    simp only [Nat.add_zero] at h3
    have h4 : hijriDaysBeforeYear 0 = 0 := rfl
    omega
  have hfy : findYear 29 (30 * q) (sumYearLen (30 * q) j + s) = (30 * q + j, s) :=
    findYear_spec j 29 (30 * q) s (by omega) (by rw [hyl] at hs_lt ⊢; exact hs_lt)
  have hB : hijriDaysBeforeMonth m = sumMonthLen (30 * q + j) 1 (m - 1) :=
    hijriDaysBeforeMonth_eq (30 * q + j) m hm1 hm2
  have hfm : findMonth 11 (30 * q + j) 1 (sumMonthLen (30 * q + j) 1 (m - 1) + (d - 1))
      = (1 + (m - 1), d - 1) := by
    apply findMonth_spec (m - 1) 11 (30 * q + j) 1 (d - 1) (by omega)
    have h5 : 1 + (m - 1) = m := by omega
    rw [h5]
    omega
  simp only [julianToHijri, hn]
  have hnq : (hijriDaysBeforeYear (30 * q + j) + s) / 10631 = q := by omega
  have hnr : (hijriDaysBeforeYear (30 * q + j) + s) % 10631 = hijriDaysBeforeYear j + s := by
    omega
  rw [hnq, hnr, ← hsum, hfy]
  rw [hs_def, hB, hfm]
  have h6 : 1 + (m - 1) = m := by omega
  have h7 : d - 1 + 1 = d := by omega
  rw [h6, h7]

/-- C1: evaluation of `HijriDate.__init__` at day values outside 1–30.
The claim says construction fails whenever the day is outside 1–30, but
the source's third check tests the variable `month` instead of `day`
(`hijri.py`, line 79), so with any in-range month every day value — here
31 and 0 — is accepted and stored. -/
theorem mkHijriDate_day_check_bug :
    mkHijriDate 1444 1 31 = Except.ok (1444, 1, 31) ∧
    mkHijriDate 1444 1 0 = Except.ok (1444, 1, 0) :=
  ⟨rfl, rfl⟩

/-- C2 (counterexample): the triple (1, 2, 30) is syntactically valid in
the claim's sense (year non-negative, month 1–12, day 1–30), yet the
round trip through the Julian day returns (1, 3, 1), because the second
Hijri month has only 29 days. -/
theorem hijri_julian_roundtrip_cex :
    (1 ≤ 2 ∧ 2 ≤ 12 ∧ 1 ≤ 30 ∧ 30 ≤ 30) ∧
    julianToHijri (hijriToJulian 1 2 30) 0 ≠ ((1 : ℕ), (2 : ℕ), (30 : ℕ)) := by
  refine ⟨by norm_num, ?_⟩
  decide

/-- C2 (witness): the amended round trip applied to 1 Ramadan 1444. -/
theorem hijri_julian_roundtrip_witness :
    julianToHijri (hijriToJulian 1444 9 1) 0 = (1444, 9, 1) :=
  hijri_julian_roundtrip 1444 9 1 (by norm_num) (by norm_num) (by norm_num) (by decide)

/-! ### Prayer-time configuration (`praytimes.py`) -/

/-- A Fajr/Isha parameter: either a depression angle or a fixed
minutes-after-sunset rule (`FixedTime` with its all-year and Ramadan
values), the duality of `MethodInfo` fields in the source. -/
inductive AnglePar where
  | angle (a : ℚ)
  | fixed (allYearMin ramadanMin : ℚ)
deriving DecidableEq

/-- The numeric content of a `MethodInfo` registry entry
(organization names and applicability metadata are out of scope). -/
structure MethodInfo where
  methodId : ℕ
  fajrAngle : AnglePar
  ishaaAngle : AnglePar
deriving DecidableEq

/-- The fixed registry `LIST_FAJR_ISHA_METHODS` of `praytimes.py`. -/
def LIST_FAJR_ISHA_METHODS : List MethodInfo :=
  [ ⟨1, .angle 18, .angle 18⟩,
    ⟨2, .angle 18, .angle 17⟩,
    ⟨3, .angle 19.5, .angle 17.5⟩,
    ⟨4, .angle 18.5, .fixed 90 120⟩,
    ⟨5, .angle 15, .angle 15⟩,
    ⟨6, .angle 12, .angle 12⟩,
    ⟨7, .angle 20, .angle 18⟩,
    ⟨8, .angle 16, .angle 15⟩,
    ⟨9, .angle 19.5, .fixed 90 90⟩ ]

/-- Python list indexing: `l[i]` returns the `i`-th element for
`0 ≤ i < len l`, indexes from the end for `-len l ≤ i < 0`, and raises
`IndexError` (here `none`) otherwise. -/
def pyListGet {α : Type} (l : List α) (i : ℤ) : Option α :=
  if 0 ≤ i then l.get? i.toNat
  else if 0 ≤ i + l.length then l.get? (i + l.length).toNat
  else none

/-- The registry lookup performed by `PrayerConf.__init__` for an integer
`angle_ref`: index `angle_ref - 1` when `angle_ref <= len(registry)`,
index 2 otherwise. -/
def selectMethod (angleRef : ℤ) : Option MethodInfo :=
  pyListGet LIST_FAJR_ISHA_METHODS (if angleRef ≤ 9 then angleRef - 1 else 2)

/-- The configuration record built by `PrayerConf.__init__`. -/
structure PrayerConf where
  longitude : ℚ
  latitude : ℚ
  timezone : ℚ
  sherookAngle : ℚ
  maghrebAngle : ℚ
  asrMadhab : ℕ
  middleLongitude : ℚ
  longitudeDifference : ℚ
  summerTime : Bool
  fajrAngle : AnglePar
  ishaaAngle : AnglePar
deriving DecidableEq

/-- `PrayerConf.__init__` with an integer method selector.  `none` is the
`IndexError` escaping from the registry access. -/
def mkPrayerConf (longitude latitude timezone : ℚ) (angleRef : ℤ)
    (asrMadhab : ℤ) (enableSummerTime : Bool) : Option PrayerConf :=
  match selectMethod angleRef with
  | none => none
  | some method =>
    some { longitude := longitude
           latitude := latitude
           timezone := timezone
           sherookAngle := 90.83333
           maghrebAngle := 90.83333
           asrMadhab := if asrMadhab = 2 then 2 else 1
           middleLongitude := timezone * 15
           longitudeDifference := (timezone * 15 - longitude) / 15
           summerTime := enableSummerTime
           fajrAngle := (match method.fajrAngle with
                         | .angle a => .angle (a + 90)
                         | .fixed a r => .fixed a r)
           ishaaAngle := (match method.ishaaAngle with
                          | .angle a => .angle (a + 90)
                          | .fixed a r => .fixed a r) }

/-! ### Solar position and prayer times (`praytimes.py`), over `ℝ`

Python's `math.sqrt` raises for a negative argument and float division
raises `ZeroDivisionError` for a zero denominator; every such partial
operation is guarded here, with `none` standing for the runtime error. -/

/-- Modelled from the spec: `baselib.dsin`, sine of an angle in degrees. -/
noncomputable def dsin (x : ℝ) : ℝ := Real.sin (x * Real.pi / 180)

/-- Modelled from the spec: `baselib.dcos`, cosine of an angle in degrees. -/
noncomputable def dcos (x : ℝ) : ℝ := Real.cos (x * Real.pi / 180)

/-- A Gregorian calendar date. -/
structure GregorianDate where
  year : ℤ
  month : ℤ
  day : ℤ
deriving DecidableEq

/-- The Julian day `Prayer.__init__` computes for its date. -/
def jdOf (dat : GregorianDate) : ℚ := gregorianToJulian dat.year dat.month dat.day

/-- Modelled from the spec: `baselib.equation_of_time`, a standard
truncated Fourier series in the days since the epoch 2451544.5, in
minutes of time.  (Total: no partial arithmetic.) -/
noncomputable def equationOfTime (jd : ℚ) : ℝ :=
  let n : ℝ := (jd : ℝ) - 2451544.5
  let b : ℝ := 360 / 365.24 * (n - 81)
  9.87 * dsin (2 * b) - 7.53 * dcos b - 1.5 * dsin b

/-- The obliquity term `epsilon` of `Prayer._sun_declination`. -/
noncomputable def declEpsilon (jd : ℚ) : ℝ := 23.44 - 0.0000004 * ((jd : ℝ) - 2451544.5)

/-- The mean anomaly term `g` of `Prayer._sun_declination`. -/
noncomputable def declG (jd : ℚ) : ℝ := 357.528 + 0.9856003 * ((jd : ℝ) - 2451544.5)

/-- The ecliptic longitude term `lamda` of `Prayer._sun_declination`. -/
noncomputable def declLambda (jd : ℚ) : ℝ :=
  280.466 + 0.9856474 * ((jd : ℝ) - 2451544.5)
    + 1.915 * dsin (declG jd) + 0.02 * dsin (2 * declG jd)

/-- The sine product `x` of `Prayer._sun_declination`. -/
noncomputable def declX (jd : ℚ) : ℝ := dsin (declEpsilon jd) * dsin (declLambda jd)

/-- The value `Prayer._sun_declination` produces when its arithmetic is
defined (`180/(4 atan 1) * atan(x / sqrt(-x*x+1))`). -/
noncomputable def declVal (jd : ℚ) : ℝ :=
  (180 / (4 * Real.arctan 1)) * Real.arctan (declX jd / Real.sqrt (-declX jd * declX jd + 1))

/-- `Prayer._sun_declination`: the sun declination in degrees.  Defined
when `-x*x + 1 > 0`; at `-x*x + 1 < 0` Python's `sqrt` raises, and at
`= 0` the division by `sqrt(0.0)` raises. -/
noncomputable def sunDeclination (jd : ℚ) : Option ℝ :=
  if 0 < -declX jd * declX jd + 1 then some (declVal jd) else none

/-- The ratio `s` of `Prayer._get_time_for_angle`. -/
noncomputable def sVal (conf : PrayerConf) (angle delta : ℝ) : ℝ :=
  (dcos angle - dsin (conf.latitude : ℝ) * dsin delta) / (dcos (conf.latitude : ℝ) * dcos delta)

/-- The closing expression of `Prayer._get_time_for_angle`
(`(180/pi * (atan(-s/sqrt(-s*s+1)) + pi/2)) / 15`). -/
noncomputable def hourAngle (s : ℝ) : ℝ :=
  (180 / Real.pi * (Real.arctan (-s / Real.sqrt (-s * s + 1)) + Real.pi / 2)) / 15

/-- `Prayer._get_time_for_angle`: the hour-angle offset (in decimal
hours) at which the sun reaches the given zenith angle (in degrees).
The division defining `s` raises when its denominator is zero, and the
final `sqrt`/division require `-s*s + 1 > 0`. -/
noncomputable def timeForAngle (conf : PrayerConf) (jd : ℚ) (angle : ℝ) : Option ℝ :=
  match sunDeclination jd with
  | none => none
  | some delta =>
    if dcos (conf.latitude : ℝ) * dcos delta = 0 then none
    else if 0 < -sVal conf angle delta * sVal conf angle delta + 1 then
      some (hourAngle (sVal conf angle delta))
    else none

/-- The shadow-geometry quantity `x` of `Prayer._get_asr_angle`. -/
noncomputable def asrX (conf : PrayerConf) (delta : ℝ) : ℝ :=
  dsin (conf.latitude : ℝ) * dsin delta + dcos (conf.latitude : ℝ) * dcos delta

/-- The angle `Prayer._get_asr_angle` produces when its arithmetic is
defined. -/
noncomputable def asrAngleVal (conf : PrayerConf) (delta : ℝ) : ℝ :=
  90 - 180 / Real.pi * (Real.arctan ((conf.asrMadhab : ℝ)
    + 1 / Real.tan (Real.arctan (asrX conf delta
        / Real.sqrt (-asrX conf delta * asrX conf delta + 1))))
    + 2 * Real.arctan 1)

/-- `Prayer._get_asr_angle`: the madhab-dependent Asr angle in degrees.
Its `sqrt`/division need `-x*x + 1 > 0` and the `1/tan(a)` raises when
`tan a` is zero. -/
noncomputable def asrAngle (conf : PrayerConf) (jd : ℚ) : Option ℝ :=
  match sunDeclination jd with
  | none => none
  | some delta =>
    if 0 < -asrX conf delta * asrX conf delta + 1 then
      if Real.tan (Real.arctan (asrX conf delta
          / Real.sqrt (-asrX conf delta * asrX conf delta + 1))) = 0 then none
      else some (asrAngleVal conf delta)
    else none

/-- `Prayer._get_dohr_time` (decimal hours, total). -/
noncomputable def dohrTime (conf : PrayerConf) (dat : GregorianDate) : ℝ :=
  12 + (conf.longitudeDifference : ℝ) + equationOfTime (jdOf dat) / 60

/-- `Prayer._get_fajr_time`.  (Passing a `FixedTime` object where a float
angle is expected would raise a `TypeError` in the trigonometry, hence
`none` on the `fixed` branch.) -/
noncomputable def fajrTime (conf : PrayerConf) (dat : GregorianDate) : Option ℝ :=
  match conf.fajrAngle with
  | .angle a => (timeForAngle conf (jdOf dat) (a : ℝ)).map (fun t => dohrTime conf dat - t)
  | .fixed _ _ => none

/-- `Prayer._get_sherook_time`. -/
noncomputable def sherookTime (conf : PrayerConf) (dat : GregorianDate) : Option ℝ :=
  (timeForAngle conf (jdOf dat) (conf.sherookAngle : ℝ)).map (fun t => dohrTime conf dat - t)

/-- `Prayer._get_asr_time`. -/
noncomputable def asrTime (conf : PrayerConf) (dat : GregorianDate) : Option ℝ :=
  match asrAngle conf (jdOf dat) with
  | none => none
  | some ang => (timeForAngle conf (jdOf dat) ang).map (fun t => dohrTime conf dat + t)

/-- `Prayer._get_maghreb_time`. -/
noncomputable def maghrebTime (conf : PrayerConf) (dat : GregorianDate) : Option ℝ :=
  (timeForAngle conf (jdOf dat) (conf.maghrebAngle : ℝ)).map (fun t => dohrTime conf dat + t)

/-- `Prayer._get_ishaa_time`: for a `FixedTime` rule, the configured
minutes (Ramadan value iff the Hijri month under the same correction is
9) are converted to hours and added on top of the Maghrib computation;
for an angle rule, an ordinary hour-angle offset from Dhuhr. -/
noncomputable def ishaaTime (conf : PrayerConf) (dat : GregorianDate) (correction : ℤ) :
    Option ℝ :=
  match conf.ishaaAngle with
  | .fixed allYearMin ramadanMin =>
    let tam : ℝ :=
      if hijriMonthOf dat.year dat.month dat.day correction = 9 then (ramadanMin : ℝ) / 60
      else (allYearMin : ℝ) / 60
    (timeForAngle conf (jdOf dat) (conf.maghrebAngle : ℝ)).map
      (fun t => tam + dohrTime conf dat + t)
  | .angle a => (timeForAngle conf (jdOf dat) (a : ℝ)).map (fun t => dohrTime conf dat + t)

/-- `Prayer._get_midnight`. -/
noncomputable def midnightTime (conf : PrayerConf) (dat : GregorianDate) : Option ℝ :=
  match maghrebTime conf dat, fajrTime conf dat with
  | some m, some f => some (m + (24 - (m - f)) / 2)
  | _, _ => none

/-- The full set of decimal-hour values `Prayer.__init__` stores. -/
structure PrayerTimes where
  dohr : ℝ
  fajr : Option ℝ
  sherook : Option ℝ
  asr : Option ℝ
  maghreb : Option ℝ
  ishaa : Option ℝ
  midnight : Option ℝ

/-- The computation part of `Prayer.__init__` (after the correction
check). -/
noncomputable def computeTimes (conf : PrayerConf) (dat : GregorianDate) (correction : ℤ) :
    PrayerTimes where
  dohr := dohrTime conf dat
  fajr := fajrTime conf dat
  sherook := sherookTime conf dat
  asr := asrTime conf dat
  maghreb := maghrebTime conf dat
  ishaa := ishaaTime conf dat correction
  midnight := midnightTime conf dat

/-- `Prayer.__init__`: the correction value is validated before any
prayer time is computed; out of range `[-2, 2]` raises
`'Correction value exception'` and nothing is computed. -/
noncomputable def mkPrayer (conf : PrayerConf) (dat : GregorianDate) (correction : ℤ) :
    Except String PrayerTimes :=
  if ¬(-2 ≤ correction ∧ correction ≤ 2) then Except.error "Correction value exception"
  else Except.ok (computeTimes conf dat correction)

/-! ### Qiblah bearing (`qiblah.py`) -/

/-- The state of a `Qiblah` object: its cached `_qiblah_dir` field. -/
structure QiblahState where
  qiblahDir : ℝ

/-- The numerator of the bearing formula in `Qiblah.__init__`
(`dcos(MAKKAH_LATI) * dsin(lamda)` with `lamda = MAKKAH_LONG - longitude`). -/
noncomputable def qiblahNum (longitude : ℚ) : ℝ :=
  dcos 21.42249 * dsin (39.826174 - (longitude : ℝ))

/-- The denominator of the bearing formula in `Qiblah.__init__`. -/
noncomputable def qiblahDenom (longitude latitude : ℚ) : ℝ :=
  dsin 21.42249 * dcos (latitude : ℝ)
    - dcos 21.42249 * dsin (latitude : ℝ) * dcos (39.826174 - (longitude : ℝ))

/-- The raw arctangent bearing of `Qiblah.__init__`, before the quadrant
corrections. -/
noncomputable def qiblahRaw (longitude latitude : ℚ) : ℝ :=
  180 / Real.pi * Real.arctan (qiblahNum longitude / qiblahDenom longitude latitude)

/-- `Qiblah.__init__`: the bearing from an observer to the reference
coordinate, with the source's two sequential quadrant corrections (+180
when the denominator is negative, +360 when the denominator is positive
and the numerator negative).  The division `num / denom` raises when
`denom` is zero. -/
noncomputable def mkQiblah (longitude latitude : ℚ) : Option QiblahState :=
  if qiblahDenom longitude latitude = 0 then none
  else
    some ⟨if 0 < qiblahDenom longitude latitude ∧ qiblahNum longitude < 0
          then 360 + (if qiblahDenom longitude latitude < 0
                      then 180 + qiblahRaw longitude latitude
                      else qiblahRaw longitude latitude)
          else (if qiblahDenom longitude latitude < 0
                then 180 + qiblahRaw longitude latitude
                else qiblahRaw longitude latitude)⟩

/-- `Qiblah.direction`: returns the cached field. -/
def qiblahDirection (st : QiblahState) : ℝ := st.qiblahDir

/-- Python `int()`: truncation toward zero. -/
noncomputable def pyTrunc (x : ℝ) : ℤ := if 0 ≤ x then ⌊x⌋ else -⌊-x⌋

/-- `Qiblah.sixty`: produces the three sexagesimal components and — as in
the source, which reassigns `self._qiblah_dir` at each step — leaves the
object with the final scratch value in its cached field. -/
noncomputable def sixty (st : QiblahState) : (ℤ × ℤ × ℤ) × QiblahState :=
  let i1 := pyTrunc st.qiblahDir
  let d1 := (st.qiblahDir - (i1 : ℝ)) * 60
  let i2 := pyTrunc d1
  let d2 := (d1 - (i2 : ℝ)) * 60
  let i3 := pyTrunc d2
  let d3 := (d2 - (i3 : ℝ)) * 60
  ((i1, i2, i3), ⟨d3⟩)

/-! ### Claims C8, C10, C9, C4 -/

/-- C8: `Prayer.__init__` validates the correction value before anything
is computed: outside the integer range [-2, 2] it raises the correction
exception and returns no times at all; inside the range the construction
proceeds to the (complete) time computation. -/
theorem prayer_correction_validation (conf : PrayerConf) (dat : GregorianDate) (c : ℤ) :
    ((c < -2 ∨ 2 < c) → mkPrayer conf dat c = Except.error "Correction value exception") ∧
    (-2 ≤ c → c ≤ 2 → mkPrayer conf dat c = Except.ok (computeTimes conf dat c)) := by
  constructor
  · intro h
    unfold mkPrayer
    rw [if_pos]
    omega
  · intro h1 h2
    unfold mkPrayer
    rw [if_neg (not_not_intro ⟨h1, h2⟩)]

/-- The configuration built by `PrayerConf(0, 90, 0, 2, 1, False)`:
the North Pole with calculation method 2. -/
def poleConf : PrayerConf :=
  { longitude := 0
    latitude := 90
    timezone := 0
    sherookAngle := 90.83333
    maghrebAngle := 90.83333
    asrMadhab := 1
    middleLongitude := 0 * 15
    longitudeDifference := (0 * 15 - 0) / 15
    summerTime := false
    fajrAngle := .angle (18 + 90)
    ishaaAngle := .angle (17 + 90) }

/-- C8 (witness): correction 3 is rejected, correction 0 accepted. -/
theorem prayer_correction_validation_witness :
    mkPrayer poleConf ⟨2000, 1, 1⟩ 3 = Except.error "Correction value exception" ∧
    mkPrayer poleConf ⟨2000, 1, 1⟩ 0 = Except.ok (computeTimes poleConf ⟨2000, 1, 1⟩ 0) :=
  ⟨(prayer_correction_validation poleConf ⟨2000, 1, 1⟩ 3).1 (by norm_num),
   (prayer_correction_validation poleConf ⟨2000, 1, 1⟩ 0).2 (by norm_num) (by norm_num)⟩

/-- C10 (counterexample): the selector -9 becomes Python index -10, out
of range even from the end of the 9-element registry, so `PrayerConf`
construction raises an IndexError instead of never raising. -/
theorem prayerConf_angle_ref_cex : mkPrayerConf 0 0 0 (-9) 1 false = none := rfl

/-- C10 (amended): an integer selector `ref ≥ -8` never raises: above 9
it silently takes registry index 2 (method id 3), and `ref ≤ 0` indexes
from the end of the registry (0 picks the last method); but a selector
`≤ -9` raises an out-of-range error. -/
theorem prayerConf_angle_ref_amended (lon lat tz : ℚ) (madhab : ℤ) (st : Bool) (ref : ℤ) :
    (-8 ≤ ref → ∃ conf, mkPrayerConf lon lat tz ref madhab st = some conf) ∧
    (9 < ref → selectMethod ref = some ⟨3, .angle 19.5, .angle 17.5⟩) ∧
    (-8 ≤ ref → ref ≤ 0 → selectMethod ref = LIST_FAJR_ISHA_METHODS.get? (8 + ref).toNat) ∧
    (ref ≤ -9 → mkPrayerConf lon lat tz ref madhab st = none) := by
  have hbig : 9 < ref → selectMethod ref = some ⟨3, .angle 19.5, .angle 17.5⟩ := by
    intro h9
    unfold selectMethod
    rw [if_neg (by omega)]
    rfl
  refine ⟨?_, hbig, ?_, ?_⟩
  · intro h8
    rcases le_or_lt ref 9 with h9 | h9
    · interval_cases ref <;> exact ⟨_, rfl⟩
    · unfold mkPrayerConf
      rw [hbig h9]
      exact ⟨_, rfl⟩
  · intro h8 h0
    interval_cases ref <;> rfl
  · intro h9
    unfold mkPrayerConf selectMethod
    have hlen : (LIST_FAJR_ISHA_METHODS.length : ℤ) = 9 := rfl
    have hnone : pyListGet LIST_FAJR_ISHA_METHODS (ref - 1) = none := by
      unfold pyListGet
      rw [hlen, if_neg (by omega), if_neg (by omega)]
    rw [if_pos (by omega), hnone]

/-- C10 (witness): selector 0 builds a configuration and picks the last
registry entry; selector 10 picks method id 3. -/
theorem prayerConf_angle_ref_amended_witness :
    (∃ conf, mkPrayerConf 0 0 0 0 1 false = some conf) ∧
    selectMethod 0 = LIST_FAJR_ISHA_METHODS.get? 8 ∧
    selectMethod 10 = some ⟨3, .angle 19.5, .angle 17.5⟩ := by
  refine ⟨(prayerConf_angle_ref_amended 0 0 0 1 false 0).1 (by norm_num), ?_, ?_⟩
  · have h := (prayerConf_angle_ref_amended 0 0 0 1 false 0).2.2.1 (by norm_num) (by norm_num)
    simpa using h
  · exact (prayerConf_angle_ref_amended 0 0 0 1 false 10).2.1 (by norm_num)

/-- C9: `Qiblah.sixty` mutates the object's cached bearing: for a Qiblah
object whose cached `_qiblah_dir` is 10.5 degrees, `direction()` returns
10.5 before the call but 0 afterwards (the field ends up holding the
final sexagesimal scratch value), contradicting the claim that
`direction()` is unchanged by `sixty()`. -/
theorem sixty_mutates_direction :
    qiblahDirection ((sixty ⟨21 / 2⟩).2) = 0 ∧
    qiblahDirection (⟨21 / 2⟩ : QiblahState) = 21 / 2 ∧
    (0 : ℝ) ≠ 21 / 2 := by
  have h1 : pyTrunc (21 / 2 : ℝ) = 10 := by
    unfold pyTrunc
    rw [if_pos (by norm_num)]
    rw [Int.floor_eq_iff]
    norm_num
  refine ⟨?_, rfl, by norm_num⟩
  show ((((21 / 2 : ℝ) - (pyTrunc (21 / 2 : ℝ) : ℝ)) * 60
      - (pyTrunc (((21 / 2 : ℝ) - (pyTrunc (21 / 2 : ℝ) : ℝ)) * 60) : ℝ)) * 60
      - (pyTrunc ((((21 / 2 : ℝ) - (pyTrunc (21 / 2 : ℝ) : ℝ)) * 60
          - (pyTrunc (((21 / 2 : ℝ) - (pyTrunc (21 / 2 : ℝ) : ℝ)) * 60) : ℝ)) * 60) : ℝ)) * 60
      = 0
  rw [h1]
  have e1 : ((21 / 2 : ℝ) - ((10 : ℤ) : ℝ)) * 60 = 30 := by norm_num
  rw [e1]
  have h2 : pyTrunc (30 : ℝ) = 30 := by
    unfold pyTrunc
    rw [if_pos (by norm_num)]
    rw [Int.floor_eq_iff]
    norm_num
  rw [h2]
  have e2 : ((30 : ℝ) - ((30 : ℤ) : ℝ)) * 60 = 0 := by norm_num
  rw [e2]
  have h3 : pyTrunc (0 : ℝ) = 0 := by
    unfold pyTrunc
    rw [if_pos le_rfl]
    exact Int.floor_zero
  rw [h3]
  norm_num

/-- C4: at the valid latitude 90 (the North Pole), the hour-angle
computation divides by zero — `dcos 90 = cos (π/2) = 0` makes the
denominator of `s` vanish — so constructing the prayer-time set fails
with an arithmetic domain error on Fajr (for whatever date), instead of
never failing. -/
theorem prayer_domain_failure_at_pole :
    mkPrayerConf 0 90 0 2 1 false = some poleConf ∧
    ∀ (dat : GregorianDate) (c : ℤ), (computeTimes poleConf dat c).fajr = none := by
  constructor
  · have hsel : selectMethod 2 = some ⟨2, .angle 18, .angle 17⟩ := rfl
    unfold mkPrayerConf
    rw [hsel]
    rfl
  · intro dat c
    have hcos : dcos ((poleConf.latitude : ℚ) : ℝ) = 0 := by
      show dcos ((90 : ℚ) : ℝ) = 0
      unfold dcos
      have h90 : ((90 : ℚ) : ℝ) * Real.pi / 180 = Real.pi / 2 := by
        push_cast
        ring
      rw [h90, Real.cos_pi_div_two]
    have ht : ∀ angle : ℝ, timeForAngle poleConf (jdOf dat) angle = none := by
      intro angle
      unfold timeForAngle
      cases hδ : sunDeclination (jdOf dat) with
      | none => rfl
      | some delta =>
        have h0 : dcos ((poleConf.latitude : ℚ) : ℝ) * dcos delta = 0 := by
          rw [hcos, zero_mul]
        show (if dcos ((poleConf.latitude : ℚ) : ℝ) * dcos delta = 0 then none
            else if 0 < -sVal poleConf angle delta * sVal poleConf angle delta + 1 then
              some (hourAngle (sVal poleConf angle delta))
            else none) = none
        rw [if_pos h0]
    show fajrTime poleConf dat = none
    unfold fajrTime
    show (timeForAngle poleConf (jdOf dat) ((18 + 90 : ℚ) : ℝ)).map
      (fun t => dohrTime poleConf dat - t) = none
    rw [ht]
    rfl

/-! ### Claim C5: the Qiblah bearing is normalized to [0, 360) -/

theorem qiblahRaw_bounds (lon lat : ℚ) :
    -90 < qiblahRaw lon lat ∧ qiblahRaw lon lat < 90 := by
  unfold qiblahRaw
  have hpos : (0 : ℝ) < 180 / Real.pi := div_pos (by norm_num) Real.pi_pos
  have h90 : 180 / Real.pi * (Real.pi / 2) = 90 := by
    field_simp
    norm_num
  constructor
  · have h1 := Real.neg_pi_div_two_lt_arctan (qiblahNum lon / qiblahDenom lon lat)
    have h2 := mul_lt_mul_of_pos_left h1 hpos
    rw [mul_neg, h90] at h2
    linarith
  · have h1 := Real.arctan_lt_pi_div_two (qiblahNum lon / qiblahDenom lon lat)
    have h2 := mul_lt_mul_of_pos_left h1 hpos
    rw [h90] at h2
    linarith

/-- C5: whenever `Qiblah.__init__` completes (the bearing denominator is
nonzero), the bearing returned by `direction()` lies in [0, 360), the
raw arctangent having been corrected by +180 degrees when the denominator
is negative and by +360 degrees when the denominator is positive and the
numerator negative. -/
theorem qiblah_direction_range (lon lat : ℚ) (st : QiblahState)
    (h : mkQiblah lon lat = some st) :
    0 ≤ qiblahDirection st ∧ qiblahDirection st < 360 := by
  obtain ⟨hb1, hb2⟩ := qiblahRaw_bounds lon lat
  unfold mkQiblah at h
  split_ifs at h with h0 h360 h180 h180
  · -- the +360 condition holds while the denominator is negative: impossible
    exact absurd h180 (by linarith [h360.1])
  · -- +360 branch: raw bearing is negative here
    have hst : st = ⟨360 + qiblahRaw lon lat⟩ := (Option.some.inj h).symm
    subst hst
    have hneg : qiblahNum lon / qiblahDenom lon lat < 0 :=
      div_neg_of_neg_of_pos h360.2 h360.1
    have harc : Real.arctan (qiblahNum lon / qiblahDenom lon lat) < 0 := by
      have h2 := Real.arctan_strictMono hneg
      rw [Real.arctan_zero] at h2
      exact h2
    have hraw : qiblahRaw lon lat < 0 := by
      unfold qiblahRaw
      exact mul_neg_of_pos_of_neg (div_pos (by norm_num) Real.pi_pos) harc
    show 0 ≤ 360 + qiblahRaw lon lat ∧ 360 + qiblahRaw lon lat < 360
    constructor <;> linarith
  · -- +180 branch: denominator negative
    have hst : st = ⟨180 + qiblahRaw lon lat⟩ := (Option.some.inj h).symm
    subst hst
    show 0 ≤ 180 + qiblahRaw lon lat ∧ 180 + qiblahRaw lon lat < 360
    constructor <;> linarith
  · -- no correction: denominator positive, numerator non-negative
    have hst : st = ⟨qiblahRaw lon lat⟩ := (Option.some.inj h).symm
    subst hst
    have hdpos : 0 < qiblahDenom lon lat := lt_of_le_of_ne (not_lt.mp h180) (Ne.symm h0)
    have hnn : 0 ≤ qiblahNum lon := by
      by_contra hc
      push_neg at hc
      exact h360 ⟨hdpos, hc⟩
    have hq : 0 ≤ qiblahNum lon / qiblahDenom lon lat := div_nonneg hnn hdpos.le
    have harc : 0 ≤ Real.arctan (qiblahNum lon / qiblahDenom lon lat) := by
      have h2 := Real.arctan_strictMono.monotone hq
      rw [Real.arctan_zero] at h2
      exact h2
    have hraw : 0 ≤ qiblahRaw lon lat := by
      unfold qiblahRaw
      exact mul_nonneg (div_pos (by norm_num) Real.pi_pos).le harc
    show 0 ≤ qiblahRaw lon lat ∧ qiblahRaw lon lat < 360
    exact ⟨hraw, by linarith⟩

/-! ### Sign and value facts about degree trigonometry -/

theorem dsin_zero : dsin 0 = 0 := by
  unfold dsin
  simp

theorem dcos_zero : dcos 0 = 1 := by
  unfold dcos
  simp

theorem dsin_pos {x : ℝ} (h1 : 0 < x) (h2 : x < 180) : 0 < dsin x := by
  unfold dsin
  apply Real.sin_pos_of_pos_of_lt_pi
  · have := Real.pi_pos
    positivity
  · nlinarith [Real.pi_pos]

theorem dcos_pos {x : ℝ} (h1 : -90 < x) (h2 : x < 90) : 0 < dcos x := by
  unfold dcos
  apply Real.cos_pos_of_mem_Ioo
  constructor
  · nlinarith [Real.pi_pos]
  · nlinarith [Real.pi_pos]

theorem dcos_neg_of {x : ℝ} (h1 : 90 < x) (h2 : x < 270) : dcos x < 0 := by
  unfold dcos
  apply Real.cos_neg_of_pi_div_two_lt_of_lt
  · nlinarith [Real.pi_pos]
  · nlinarith [Real.pi_pos]

/-- `Qiblah(conf)` at the origin (longitude 0, latitude 0): the bearing
denominator is `dsin 21.42249 > 0` and the numerator is positive, so no
correction applies and the cached bearing is the raw arctangent value. -/
theorem mkQiblah_origin_eval : mkQiblah 0 0 = some ⟨qiblahRaw 0 0⟩ := by
  have hden : 0 < qiblahDenom 0 0 := by
    unfold qiblahDenom
    norm_num [dsin_zero, dcos_zero]
    exact dsin_pos (by norm_num) (by norm_num)
  have hnum : 0 < qiblahNum 0 := by
    unfold qiblahNum
    norm_num
    exact mul_pos (dcos_pos (by norm_num) (by norm_num)) (dsin_pos (by norm_num) (by norm_num))
  unfold mkQiblah
  rw [if_neg (ne_of_gt hden)]
  rw [if_neg (fun hA => absurd hA.2 (not_lt.mpr hnum.le))]
  rw [if_neg (not_lt.mpr hden.le)]

/-- C5 (witness): the bearing of the observer at (0, 0) is in [0, 360). -/
theorem qiblah_direction_range_witness :
    0 ≤ qiblahDirection ⟨qiblahRaw 0 0⟩ ∧ qiblahDirection ⟨qiblahRaw 0 0⟩ < 360 :=
  qiblah_direction_range 0 0 ⟨qiblahRaw 0 0⟩ mkQiblah_origin_eval

/-! ### Evaluation lemmas for the solar computations -/

theorem sunDeclination_eval (jd : ℚ) (h : declX jd ^ 2 < 1) :
    sunDeclination jd = some (declVal jd) := by
  unfold sunDeclination
  rw [if_pos (by nlinarith)]

theorem declVal_rad (jd : ℚ) (h : declX jd ^ 2 < 1) :
    declVal jd * Real.pi / 180 = Real.arcsin (declX jd) := by
  unfold declVal
  have h4 : 4 * Real.arctan 1 = Real.pi := by
    rw [Real.arctan_one]
    ring
  rw [h4]
  have hmem : declX jd ∈ Set.Ioo (-(1 : ℝ)) 1 := by
    constructor <;> nlinarith
  have hsq : -declX jd * declX jd + 1 = 1 - declX jd ^ 2 := by ring
  rw [hsq, ← Real.arcsin_eq_arctan hmem]
  field_simp

theorem dsin_declVal (jd : ℚ) (h : declX jd ^ 2 < 1) : dsin (declVal jd) = declX jd := by
  unfold dsin
  rw [declVal_rad jd h, Real.sin_arcsin (by nlinarith) (by nlinarith)]

theorem dcos_declVal (jd : ℚ) (h : declX jd ^ 2 < 1) :
    dcos (declVal jd) = Real.sqrt (1 - declX jd ^ 2) := by
  unfold dcos
  rw [declVal_rad jd h, Real.cos_arcsin]

theorem dcos_declVal_pos (jd : ℚ) (h : declX jd ^ 2 < 1) : 0 < dcos (declVal jd) := by
  rw [dcos_declVal jd h]
  apply Real.sqrt_pos.mpr
  nlinarith

theorem timeForAngle_eval (conf : PrayerConf) (jd : ℚ) (angle : ℝ)
    (hx : declX jd ^ 2 < 1)
    (hden : dcos ((conf.latitude : ℚ) : ℝ) * dcos (declVal jd) ≠ 0)
    (hs : sVal conf angle (declVal jd) ^ 2 < 1) :
    timeForAngle conf jd angle = some (hourAngle (sVal conf angle (declVal jd))) := by
  unfold timeForAngle
  rw [sunDeclination_eval jd hx]
  show (if dcos ((conf.latitude : ℚ) : ℝ) * dcos (declVal jd) = 0 then none
      else if 0 < -sVal conf angle (declVal jd) * sVal conf angle (declVal jd) + 1 then
        some (hourAngle (sVal conf angle (declVal jd)))
      else none) = some (hourAngle (sVal conf angle (declVal jd)))
  rw [if_neg hden, if_pos (by nlinarith)]

theorem hourAngle_eq_arccos (s : ℝ) (hs : s ^ 2 < 1) :
    hourAngle s = 12 / Real.pi * Real.arccos s := by
  unfold hourAngle
  have h1 : -s * s + 1 = 1 - (-s) ^ 2 := by ring
  rw [h1]
  have hmem : -s ∈ Set.Ioo (-(1 : ℝ)) 1 := by
    constructor <;> nlinarith
  rw [← Real.arcsin_eq_arctan hmem, Real.arcsin_neg]
  rw [show -Real.arcsin s + Real.pi / 2 = Real.pi / 2 - Real.arcsin s by ring]
  rw [← Real.arccos_eq_pi_div_two_sub_arcsin]
  ring

theorem declX_sq_lt_half (jd : ℚ) (h1 : 0 < declEpsilon jd) (h2 : declEpsilon jd < 45) :
    declX jd ^ 2 < 1 / 2 := by
  unfold declX
  have hlam : dsin (declLambda jd) ^ 2 ≤ 1 := Real.sin_sq_le_one _
  have heps : dsin (declEpsilon jd) ^ 2 < 1 / 2 := by
    unfold dsin
    have htpos : 0 < declEpsilon jd * Real.pi / 180 :=
      div_pos (mul_pos h1 Real.pi_pos) (by norm_num)
    have htlt : declEpsilon jd * Real.pi / 180 < Real.pi / 4 := by
      nlinarith [Real.pi_pos]
    have hmem1 : declEpsilon jd * Real.pi / 180 ∈ Set.Icc (-(Real.pi / 2)) (Real.pi / 2) := by
      constructor <;> nlinarith [Real.pi_pos]
    have hmem2 : Real.pi / 4 ∈ Set.Icc (-(Real.pi / 2)) (Real.pi / 2) := by
      constructor <;> nlinarith [Real.pi_pos]
    have hs1 := Real.strictMonoOn_sin hmem1 hmem2 htlt
    rw [Real.sin_pi_div_four] at hs1
    have hspos : 0 < Real.sin (declEpsilon jd * Real.pi / 180) :=
      Real.sin_pos_of_pos_of_lt_pi htpos (by nlinarith [Real.pi_pos])
    have hsq2 : Real.sqrt 2 ^ 2 = 2 := Real.sq_sqrt (by norm_num)
    nlinarith
  have hss := sq_nonneg (dsin (declEpsilon jd))
  have hll := sq_nonneg (dsin (declLambda jd))
  calc (dsin (declEpsilon jd) * dsin (declLambda jd)) ^ 2
      = dsin (declEpsilon jd) ^ 2 * dsin (declLambda jd) ^ 2 := by ring
    _ ≤ dsin (declEpsilon jd) ^ 2 * 1 := by nlinarith
    _ < 1 / 2 := by nlinarith

theorem sVal_lat0 (conf : PrayerConf) (hlat : conf.latitude = 0) (angle : ℝ) (jd : ℚ)
    (hx : declX jd ^ 2 < 1) :
    sVal conf angle (declVal jd) = dcos angle / Real.sqrt (1 - declX jd ^ 2) := by
  unfold sVal
  rw [hlat]
  have hc : ((0 : ℚ) : ℝ) = 0 := by norm_num
  rw [hc, dsin_zero, dcos_zero, dcos_declVal jd hx]
  simp

theorem sVal_lat0_sq_lt_one (conf : PrayerConf) (hlat : conf.latitude = 0) (angle : ℝ)
    (jd : ℚ) (hx2 : declX jd ^ 2 < 1 / 2) (hcos2 : dcos angle ^ 2 ≤ 1 / 4) :
    sVal conf angle (declVal jd) ^ 2 < 1 := by
  rw [sVal_lat0 conf hlat angle jd (by nlinarith)]
  rw [div_pow, Real.sq_sqrt (by nlinarith)]
  rw [div_lt_one (by nlinarith)]
  nlinarith

theorem dcos_sherook_sq_le : dcos ((90.83333 : ℚ) : ℝ) ^ 2 ≤ 1 / 4 := by
  have hc : ((90.83333 : ℚ) : ℝ) = 90.83333 := by norm_num
  rw [hc]
  unfold dcos
  have hu : (90.83333 : ℝ) * Real.pi / 180 = (90.83333 - 90) * Real.pi / 180 + Real.pi / 2 := by
    ring
  rw [hu, Real.cos_add_pi_div_two]
  have hupos : 0 < (90.83333 - 90 : ℝ) * Real.pi / 180 := by nlinarith [Real.pi_pos]
  have hub : (90.83333 - 90 : ℝ) * Real.pi / 180 < 0.015 := by nlinarith [Real.pi_lt_d6]
  have hs1 : Real.sin ((90.83333 - 90 : ℝ) * Real.pi / 180) < 0.015 :=
    lt_trans (Real.sin_lt hupos) hub
  have hs2 : 0 < Real.sin ((90.83333 - 90 : ℝ) * Real.pi / 180) :=
    Real.sin_pos_of_pos_of_lt_pi hupos (by nlinarith [Real.pi_gt_d6])
  nlinarith

/-! ### Claim C6: the fixed-offset Isha rule -/

/-- C6: for a configuration whose Isha parameter is a `FixedTime` rule,
whenever Maghrib is computed, Isha equals Maghrib plus
`ramadan_minutes/60` when the Hijri month of the date (under the same
correction value) is 9, and Maghrib plus `all_year_minutes/60` for any
other Hijri month. -/
theorem ishaa_fixed_offset_rule (conf : PrayerConf) (dat : GregorianDate) (c : ℤ)
    (ay ram : ℚ) (hA : conf.ishaaAngle = AnglePar.fixed ay ram)
    (m : ℝ) (hM : maghrebTime conf dat = some m) :
    ishaaTime conf dat c =
      some (m + (if hijriMonthOf dat.year dat.month dat.day c = 9
        then ((ram : ℚ) : ℝ) / 60 else ((ay : ℚ) : ℝ) / 60)) := by
  unfold maghrebTime at hM
  unfold ishaaTime
  rw [hA]
  show (timeForAngle conf (jdOf dat) ((conf.maghrebAngle : ℚ) : ℝ)).map
      (fun t => (if hijriMonthOf dat.year dat.month dat.day c = 9
        then ((ram : ℚ) : ℝ) / 60 else ((ay : ℚ) : ℝ) / 60) + dohrTime conf dat + t) =
    some (m + (if hijriMonthOf dat.year dat.month dat.day c = 9
        then ((ram : ℚ) : ℝ) / 60 else ((ay : ℚ) : ℝ) / 60))
  cases hT : timeForAngle conf (jdOf dat) ((conf.maghrebAngle : ℚ) : ℝ) with
  | none =>
    rw [hT] at hM
    exact absurd hM (by simp)
  | some t =>
    rw [hT] at hM
    simp only [Option.map_some'] at hM
    have hm : dohrTime conf dat + t = m := Option.some.inj hM
    simp only [Option.map_some']
    congr 1
    split_ifs <;> linarith

/-- The configuration built by `PrayerConf(0, 0, 0, 4, 1, False)`:
the equator with the fixed-Isha method 4 (90 min, 120 min in Ramadan). -/
def fixedConf : PrayerConf :=
  { longitude := 0
    latitude := 0
    timezone := 0
    sherookAngle := 90.83333
    maghrebAngle := 90.83333
    asrMadhab := 1
    middleLongitude := 0 * 15
    longitudeDifference := (0 * 15 - 0) / 15
    summerTime := false
    fajrAngle := .angle (18.5 + 90)
    ishaaAngle := .fixed 90 120 }

theorem mkPrayerConf_fixed_eval : mkPrayerConf 0 0 0 4 1 false = some fixedConf := by
  have hsel : selectMethod 4 = some ⟨4, .angle 18.5, .fixed 90 120⟩ := rfl
  unfold mkPrayerConf
  rw [hsel]
  rfl

theorem jd_ramadan_eval : jdOf ⟨1999, 12, 20⟩ = 2453057 - 3049 / 2 := by
  unfold jdOf gregorianToJulian
  norm_num [show gregorianToJulianInt 1999 12 20 = 2453057 from by decide]

theorem declEpsilon_ramadan_bounds :
    0 < declEpsilon (jdOf ⟨1999, 12, 20⟩) ∧ declEpsilon (jdOf ⟨1999, 12, 20⟩) < 45 := by
  unfold declEpsilon
  rw [jd_ramadan_eval]
  push_cast
  constructor <;> norm_num

theorem fixedConf_maghreb_eval :
    maghrebTime fixedConf ⟨1999, 12, 20⟩ =
      some (dohrTime fixedConf ⟨1999, 12, 20⟩
        + hourAngle (sVal fixedConf ((fixedConf.maghrebAngle : ℚ) : ℝ)
            (declVal (jdOf ⟨1999, 12, 20⟩)))) := by
  have hx2 : declX (jdOf ⟨1999, 12, 20⟩) ^ 2 < 1 / 2 :=
    declX_sq_lt_half _ declEpsilon_ramadan_bounds.1 declEpsilon_ramadan_bounds.2
  have hx1 : declX (jdOf ⟨1999, 12, 20⟩) ^ 2 < 1 := by nlinarith
  have hden : dcos ((fixedConf.latitude : ℚ) : ℝ) * dcos (declVal (jdOf ⟨1999, 12, 20⟩)) ≠ 0 := by
    have hc : ((fixedConf.latitude : ℚ) : ℝ) = 0 := by norm_num [fixedConf]
    rw [hc, dcos_zero, one_mul]
    exact (dcos_declVal_pos _ hx1).ne'
  have hcos2 : dcos ((fixedConf.maghrebAngle : ℚ) : ℝ) ^ 2 ≤ 1 / 4 := dcos_sherook_sq_le
  have hs : sVal fixedConf ((fixedConf.maghrebAngle : ℚ) : ℝ)
      (declVal (jdOf ⟨1999, 12, 20⟩)) ^ 2 < 1 :=
    sVal_lat0_sq_lt_one fixedConf rfl _ _ hx2 hcos2
  unfold maghrebTime
  rw [timeForAngle_eval fixedConf (jdOf ⟨1999, 12, 20⟩)
    ((fixedConf.maghrebAngle : ℚ) : ℝ) hx1 hden hs]
  rfl

/-- C6 (witness): method 4 at the equator on 1999-12-20, which falls in
Ramadan (Hijri month 9), gets Isha = Maghrib + 120/60 hours. -/
theorem ishaa_fixed_offset_rule_witness :
    ishaaTime fixedConf ⟨1999, 12, 20⟩ 0 =
      some ((dohrTime fixedConf ⟨1999, 12, 20⟩
        + hourAngle (sVal fixedConf ((fixedConf.maghrebAngle : ℚ) : ℝ)
            (declVal (jdOf ⟨1999, 12, 20⟩)))) + ((120 : ℚ) : ℝ) / 60) := by
  have h := ishaa_fixed_offset_rule fixedConf ⟨1999, 12, 20⟩ 0 90 120 rfl _
    fixedConf_maghreb_eval
  rw [h, if_pos (show hijriMonthOf 1999 12 20 0 = 9 from by decide)]

/-! ### Claim C7: the Hanafi Asr is strictly later -/

theorem sunDeclination_some_elim (jd : ℚ) (delta : ℝ) (h : sunDeclination jd = some delta) :
    declX jd ^ 2 < 1 ∧ delta = declVal jd := by
  unfold sunDeclination at h
  split_ifs at h with hc
  exact ⟨by nlinarith, (Option.some.inj h).symm⟩

theorem timeForAngle_some_elim (conf : PrayerConf) (jd : ℚ) (angle : ℝ) (t : ℝ)
    (h : timeForAngle conf jd angle = some t) :
    ∃ delta, sunDeclination jd = some delta ∧
      dcos ((conf.latitude : ℚ) : ℝ) * dcos delta ≠ 0 ∧
      sVal conf angle delta ^ 2 < 1 ∧ t = hourAngle (sVal conf angle delta) := by
  unfold timeForAngle at h
  cases hd : sunDeclination jd with
  | none =>
    rw [hd] at h
    exact absurd h (by simp)
  | some delta =>
    rw [hd] at h
    have h2 : (if dcos ((conf.latitude : ℚ) : ℝ) * dcos delta = 0 then none
        else if 0 < -sVal conf angle delta * sVal conf angle delta + 1 then
          some (hourAngle (sVal conf angle delta))
        else none) = some t := h
    split_ifs at h2 with hden hs
    exact ⟨delta, rfl, hden, by nlinarith, (Option.some.inj h2).symm⟩

theorem asrAngle_some_elim (conf : PrayerConf) (jd : ℚ) (ang : ℝ)
    (h : asrAngle conf jd = some ang) :
    ∃ delta, sunDeclination jd = some delta ∧ asrX conf delta ^ 2 < 1 ∧
      asrX conf delta ≠ 0 ∧ ang = asrAngleVal conf delta := by
  unfold asrAngle at h
  cases hd : sunDeclination jd with
  | none =>
    rw [hd] at h
    exact absurd h (by simp)
  | some delta =>
    rw [hd] at h
    have h2 : (if 0 < -asrX conf delta * asrX conf delta + 1 then
        (if Real.tan (Real.arctan (asrX conf delta
            / Real.sqrt (-asrX conf delta * asrX conf delta + 1))) = 0 then none
         else some (asrAngleVal conf delta))
        else none) = some ang := h
    split_ifs at h2 with hx htan
    refine ⟨delta, rfl, by nlinarith, ?_, (Option.some.inj h2).symm⟩
    rw [Real.tan_arctan] at htan
    intro hX0
    apply htan
    rw [hX0]
    simp

theorem asrTime_some_elim (conf : PrayerConf) (dat : GregorianDate) (a : ℝ)
    (h : asrTime conf dat = some a) :
    ∃ ang t, asrAngle conf (jdOf dat) = some ang ∧
      timeForAngle conf (jdOf dat) ang = some t ∧ a = dohrTime conf dat + t := by
  unfold asrTime at h
  cases hA : asrAngle conf (jdOf dat) with
  | none =>
    rw [hA] at h
    exact absurd h (by simp)
  | some ang =>
    rw [hA] at h
    have h2 : (timeForAngle conf (jdOf dat) ang).map (fun t => dohrTime conf dat + t)
        = some a := h
    cases hT : timeForAngle conf (jdOf dat) ang with
    | none =>
      rw [hT] at h2
      exact absurd h2 (by simp)
    | some t =>
      rw [hT] at h2
      simp only [Option.map_some'] at h2
      exact ⟨ang, t, rfl, hT, (Option.some.inj h2).symm⟩

theorem asrAngleVal_eq (conf : PrayerConf) (delta : ℝ) :
    asrAngleVal conf delta = -(180 / Real.pi) * Real.arctan ((conf.asrMadhab : ℝ)
      + Real.sqrt (1 - asrX conf delta ^ 2) / asrX conf delta) := by
  unfold asrAngleVal
  rw [Real.tan_arctan, one_div_div]
  rw [show -asrX conf delta * asrX conf delta + 1 = 1 - asrX conf delta ^ 2 by ring]
  have h90 : 180 / Real.pi * (Real.pi / 2) = 90 := by
    field_simp
    norm_num
  rw [show 2 * Real.arctan 1 = Real.pi / 2 by rw [Real.arctan_one]; ring]
  rw [mul_add, h90]
  ring

theorem dcos_asrAngleVal (conf : PrayerConf) (delta : ℝ) :
    dcos (asrAngleVal conf delta) = 1 / Real.sqrt (1 + ((conf.asrMadhab : ℝ)
      + Real.sqrt (1 - asrX conf delta ^ 2) / asrX conf delta) ^ 2) := by
  rw [asrAngleVal_eq conf delta]
  unfold dcos
  have harg : -(180 / Real.pi) * Real.arctan ((conf.asrMadhab : ℝ)
      + Real.sqrt (1 - asrX conf delta ^ 2) / asrX conf delta) * Real.pi / 180
      = -(Real.arctan ((conf.asrMadhab : ℝ)
        + Real.sqrt (1 - asrX conf delta ^ 2) / asrX conf delta)) := by
    field_simp
    ring
  rw [harg, Real.cos_neg, Real.cos_arctan]


set_option maxHeartbeats 2000000 in
/-- C7: for the same date, location and otherwise identical
configuration, if both Asr computations complete, the Asr time under the
alternative madhab (shadow ratio 2, Hanafi) is strictly later than under
the standard madhab (shadow ratio 1, Shafi'i). -/
theorem asr_hanafi_later (conf1 : PrayerConf) (dat : GregorianDate)
    (hm1 : conf1.asrMadhab = 1)
    (hlat1 : -90 ≤ conf1.latitude) (hlat2 : conf1.latitude ≤ 90)
    (a1 a2 : ℝ)
    (h1 : asrTime conf1 dat = some a1)
    (h2 : asrTime { conf1 with asrMadhab := 2 } dat = some a2) :
    a1 < a2 := by
  obtain ⟨ang1, t1, hA1, hT1, ha1⟩ := asrTime_some_elim conf1 dat a1 h1
  obtain ⟨ang2, t2, hA2, hT2, ha2⟩ :=
    asrTime_some_elim { conf1 with asrMadhab := 2 } dat a2 h2
  obtain ⟨e1, he1, hX1sq, hX1ne, hang1⟩ := asrAngle_some_elim conf1 _ _ hA1
  obtain ⟨e2, he2, hX2sq, hX2ne, hang2⟩ :=
    asrAngle_some_elim { conf1 with asrMadhab := 2 } _ _ hA2
  obtain ⟨e3, he3, hden1, hs1, ht1val⟩ := timeForAngle_some_elim conf1 _ _ _ hT1
  obtain ⟨e4, he4, hden2, hs2, ht2val⟩ :=
    timeForAngle_some_elim { conf1 with asrMadhab := 2 } _ _ _ hT2
  have h21 : e2 = e1 := Option.some.inj (he2.symm.trans he1)
  subst h21
  have h31 : e3 = e2 := Option.some.inj (he3.symm.trans he1)
  subst h31
  have h41 : e4 = e3 := Option.some.inj (he4.symm.trans he1)
  subst h41
  obtain ⟨hdx, hdval⟩ := sunDeclination_some_elim (jdOf dat) e4 he1
  -- definitional facts, recorded before any abbreviation
  have hXalt : asrX { conf1 with asrMadhab := 2 } e4 = asrX conf1 e4 := rfl
  have hAB : dsin ((conf1.latitude : ℚ) : ℝ) * dsin e4
      + dcos ((conf1.latitude : ℚ) : ℝ) * dcos e4 = asrX conf1 e4 := rfl
  have hsval1 : sVal conf1 ang1 e4
      = (dcos ang1 - dsin ((conf1.latitude : ℚ) : ℝ) * dsin e4)
        / (dcos ((conf1.latitude : ℚ) : ℝ) * dcos e4) := rfl
  have hsval2 : sVal { conf1 with asrMadhab := 2 } ang2 e4
      = (dcos ang2 - dsin ((conf1.latitude : ℚ) : ℝ) * dsin e4)
        / (dcos ((conf1.latitude : ℚ) : ℝ) * dcos e4) := rfl
  have hdohr : dohrTime { conf1 with asrMadhab := 2 } dat = dohrTime conf1 dat := rfl
  have hmad2 : ({ conf1 with asrMadhab := 2 } : PrayerConf).asrMadhab = 2 := rfl
  rw [hXalt] at hX2sq hX2ne
  set L : ℝ := ((conf1.latitude : ℚ) : ℝ) with hL
  set X : ℝ := asrX conf1 e4 with hXdef
  -- positivity of the denominator
  have hdpos : 0 < dcos e4 := by
    rw [hdval]
    exact dcos_declVal_pos _ hdx
  have hcosLnn : 0 ≤ dcos L := by
    unfold dcos
    apply Real.cos_nonneg_of_mem_Icc
    have hc1 : (-90 : ℝ) ≤ L := by
      rw [hL]
      exact_mod_cast hlat1
    have hc2 : L ≤ 90 := by
      rw [hL]
      exact_mod_cast hlat2
    constructor
    · nlinarith [Real.pi_pos]
    · nlinarith [Real.pi_pos]
  have hcosLne : dcos L ≠ 0 := fun h0 => hden1 (by rw [h0, zero_mul])
  have hcosL : 0 < dcos L := lt_of_le_of_ne hcosLnn (Ne.symm hcosLne)
  have hB : 0 < dcos L * dcos e4 := mul_pos hcosL hdpos
  -- the two Asr zenith cosines
  have hcast1 : ((conf1.asrMadhab : ℕ) : ℝ) = 1 := by
    rw [hm1]
    norm_num
  have hcast2 : (({ conf1 with asrMadhab := 2 } : PrayerConf).asrMadhab : ℝ) = 2 := by
    rw [hmad2]
    norm_num
  set c0 : ℝ := Real.sqrt (1 - X ^ 2) / X with hc0
  have hcos1 : dcos ang1 = 1 / Real.sqrt (1 + (1 + c0) ^ 2) := by
    rw [hang1, dcos_asrAngleVal conf1 e4, hcast1, ← hXdef, hc0]
  have hcos2 : dcos ang2 = 1 / Real.sqrt (1 + (2 + c0) ^ 2) := by
    rw [hang2, dcos_asrAngleVal { conf1 with asrMadhab := 2 } e4, hXalt, hcast2, hc0]
  -- X is positive: the s1 < 1 guard forces the noon cosine to be positive
  have hs1lt : sVal conf1 ang1 e4 < 1 := by
    nlinarith [hs1, sq_nonneg (sVal conf1 ang1 e4 - 1), sq_nonneg (sVal conf1 ang1 e4 + 1)]
  have hnum1 : dcos ang1 - dsin L * dsin e4 < dcos L * dcos e4 := by
    rw [hsval1] at hs1lt
    exact (div_lt_one hB).mp hs1lt
  have hcosang1pos : 0 < dcos ang1 := by
    rw [hcos1]
    have hsq : 0 < Real.sqrt (1 + (1 + c0) ^ 2) :=
      Real.sqrt_pos.mpr (by nlinarith [sq_nonneg (1 + c0)])
    positivity
  have hXpos : 0 < X := by
    rw [← hAB]
    linarith
  have hc0nn : 0 ≤ c0 := by
    rw [hc0]
    exact div_nonneg (Real.sqrt_nonneg _) hXpos.le
  -- the Hanafi zenith cosine is smaller
  have hCC : dcos ang2 < dcos ang1 := by
    rw [hcos1, hcos2]
    apply one_div_lt_one_div_of_lt
    · exact Real.sqrt_pos.mpr (by nlinarith [sq_nonneg (1 + c0)])
    · apply Real.sqrt_lt_sqrt (by nlinarith [sq_nonneg (1 + c0)])
      nlinarith
  -- so the Hanafi s ratio is smaller
  have hss : sVal { conf1 with asrMadhab := 2 } ang2 e4 < sVal conf1 ang1 e4 := by
    rw [hsval1, hsval2]
    exact (div_lt_div_iff_of_pos_right hB).mpr (by linarith)
  -- and its arccos-based hour angle larger
  have hmem1 : sVal conf1 ang1 e4 ∈ Set.Icc (-1 : ℝ) 1 := by
    constructor
    · nlinarith [hs1, sq_nonneg (sVal conf1 ang1 e4 - 1), sq_nonneg (sVal conf1 ang1 e4 + 1)]
    · exact hs1lt.le
  have hmem2 : sVal { conf1 with asrMadhab := 2 } ang2 e4 ∈ Set.Icc (-1 : ℝ) 1 := by
    constructor
    · nlinarith [hs2, sq_nonneg (sVal { conf1 with asrMadhab := 2 } ang2 e4 - 1),
        sq_nonneg (sVal { conf1 with asrMadhab := 2 } ang2 e4 + 1)]
    · nlinarith [hs2, sq_nonneg (sVal { conf1 with asrMadhab := 2 } ang2 e4 - 1),
        sq_nonneg (sVal { conf1 with asrMadhab := 2 } ang2 e4 + 1)]
  have harc : Real.arccos (sVal conf1 ang1 e4)
      < Real.arccos (sVal { conf1 with asrMadhab := 2 } ang2 e4) :=
    Real.strictAntiOn_arccos hmem2 hmem1 hss
  have ht1' : t1 = 12 / Real.pi * Real.arccos (sVal conf1 ang1 e4) := by
    rw [ht1val, hourAngle_eq_arccos _ hs1]
  have ht2' : t2 = 12 / Real.pi
      * Real.arccos (sVal { conf1 with asrMadhab := 2 } ang2 e4) := by
    rw [ht2val, hourAngle_eq_arccos _ hs2]
  have hfac : (0 : ℝ) < 12 / Real.pi := div_pos (by norm_num) Real.pi_pos
  have ht12 : t1 < t2 := by
    rw [ht1', ht2']
    exact mul_lt_mul_of_pos_left harc hfac
  rw [ha1, ha2, hdohr]
  linarith

/-- `dsin` is bounded above by one. -/
theorem dsin_le_one (x : ℝ) : dsin x ≤ 1 := by
  unfold dsin
  exact Real.sin_le_one _

/-- `dsin` is bounded below by minus one. -/
theorem neg_one_le_dsin (x : ℝ) : -1 ≤ dsin x := by
  unfold dsin
  exact Real.neg_one_le_sin _

/-- `dsin` is negative on the third and fourth quadrants. -/
theorem dsin_neg_of {x : ℝ} (h1 : 180 < x) (h2 : x < 360) : dsin x < 0 := by
  unfold dsin
  have h3 : 0 < x * Real.pi / 180 - Real.pi := by nlinarith [Real.pi_pos]
  have h4 : x * Real.pi / 180 - Real.pi < Real.pi := by nlinarith [Real.pi_pos]
  have h5 : 0 < Real.sin (x * Real.pi / 180 - Real.pi) := Real.sin_pos_of_pos_of_lt_pi h3 h4
  have h6 : Real.sin (x * Real.pi / 180 - Real.pi) = -Real.sin (x * Real.pi / 180) := by
    rw [Real.sin_sub]
    simp
  rw [h6] at h5
  linarith

/-- On 1999-12-20 the ecliptic longitude term lies in the second half
turn, where its sine is negative. -/
theorem declLambda_ramadan_bounds :
    180 < declLambda (jdOf ⟨1999, 12, 20⟩) ∧ declLambda (jdOf ⟨1999, 12, 20⟩) < 360 := by
  unfold declLambda
  rw [jd_ramadan_eval]
  push_cast
  constructor
  · nlinarith [neg_one_le_dsin (declG ((2453057 : ℚ) - 3049 / 2)),
      neg_one_le_dsin (2 * declG ((2453057 : ℚ) - 3049 / 2))]
  · nlinarith [dsin_le_one (declG ((2453057 : ℚ) - 3049 / 2)),
      dsin_le_one (2 * declG ((2453057 : ℚ) - 3049 / 2))]

/-- On 1999-12-20 the declination sine product is nonzero (it is the
product of a positive obliquity sine and a negative longitude sine). -/
theorem declX_ramadan_ne : declX (jdOf ⟨1999, 12, 20⟩) ≠ 0 := by
  unfold declX
  have h1 : 0 < dsin (declEpsilon (jdOf ⟨1999, 12, 20⟩)) :=
    dsin_pos declEpsilon_ramadan_bounds.1
      (lt_trans declEpsilon_ramadan_bounds.2 (by norm_num))
  have h2 : dsin (declLambda (jdOf ⟨1999, 12, 20⟩)) < 0 :=
    dsin_neg_of declLambda_ramadan_bounds.1 declLambda_ramadan_bounds.2
  exact (mul_neg_of_pos_of_neg h1 h2).ne

/-- With a shadow ratio of at least one and a positive noon cosine, the
cosine of the Asr zenith angle is at most `1/sqrt 2` in square. -/
theorem dcos_asrAngleVal_sq_le (conf : PrayerConf) (delta : ℝ)
    (hm : 1 ≤ conf.asrMadhab) (hX : 0 < asrX conf delta) :
    dcos (asrAngleVal conf delta) ^ 2 ≤ 1 / 2 := by
  have hm1 : (1 : ℝ) ≤ (conf.asrMadhab : ℝ) := by exact_mod_cast hm
  have hc : 0 ≤ Real.sqrt (1 - asrX conf delta ^ 2) / asrX conf delta :=
    div_nonneg (Real.sqrt_nonneg _) hX.le
  rw [dcos_asrAngleVal conf delta, div_pow, one_pow, Real.sq_sqrt (by positivity)]
  apply one_div_le_one_div_of_le (by norm_num)
  nlinarith [sq_nonneg ((conf.asrMadhab : ℝ)
    + Real.sqrt (1 - asrX conf delta ^ 2) / asrX conf delta - 1)]

/-- `Prayer._get_asr_angle` completes when the declination is defined
and the noon cosine is positive with square below one. -/
theorem asrAngle_eval (conf : PrayerConf) (jd : ℚ) (hx1 : declX jd ^ 2 < 1)
    (hXpos : 0 < asrX conf (declVal jd)) (hXlt : asrX conf (declVal jd) ^ 2 < 1) :
    asrAngle conf jd = some (asrAngleVal conf (declVal jd)) := by
  unfold asrAngle
  rw [sunDeclination_eval jd hx1]
  show (if 0 < -asrX conf (declVal jd) * asrX conf (declVal jd) + 1 then
      if Real.tan (Real.arctan (asrX conf (declVal jd)
          / Real.sqrt (-asrX conf (declVal jd) * asrX conf (declVal jd) + 1))) = 0 then none
      else some (asrAngleVal conf (declVal jd))
    else none) = some (asrAngleVal conf (declVal jd))
  have hsq : 0 < Real.sqrt (-asrX conf (declVal jd) * asrX conf (declVal jd) + 1) :=
    Real.sqrt_pos.mpr (by nlinarith)
  have hne : Real.tan (Real.arctan (asrX conf (declVal jd)
      / Real.sqrt (-asrX conf (declVal jd) * asrX conf (declVal jd) + 1))) ≠ 0 := by
    rw [Real.tan_arctan]
    exact div_ne_zero hXpos.ne' hsq.ne'
  rw [if_pos (by nlinarith), if_neg hne]

/-- At the equator, with any shadow ratio of at least one and a small
nonzero declination sine product, `Prayer._get_asr_time` completes and
produces the Dhuhr time plus the hour angle of the Asr zenith angle. -/
theorem asrTime_lat0_eval (conf : PrayerConf) (dat : GregorianDate)
    (hlat : conf.latitude = 0) (hm : 1 ≤ conf.asrMadhab)
    (hx2 : declX (jdOf dat) ^ 2 < 1 / 2) (hxne : declX (jdOf dat) ≠ 0) :
    asrTime conf dat = some (dohrTime conf dat
      + hourAngle (sVal conf (asrAngleVal conf (declVal (jdOf dat)))
          (declVal (jdOf dat)))) := by
  have hx1 : declX (jdOf dat) ^ 2 < 1 := by nlinarith
  have hXeq : asrX conf (declVal (jdOf dat)) = Real.sqrt (1 - declX (jdOf dat) ^ 2) := by
    unfold asrX
    rw [hlat]
    have hc : ((0 : ℚ) : ℝ) = 0 := by norm_num
    rw [hc, dsin_zero, dcos_zero, dcos_declVal _ hx1]
    ring
  have hXpos : 0 < asrX conf (declVal (jdOf dat)) := by
    rw [hXeq]
    exact Real.sqrt_pos.mpr (by nlinarith)
  have hXsq : asrX conf (declVal (jdOf dat)) ^ 2 = 1 - declX (jdOf dat) ^ 2 := by
    rw [hXeq]
    exact Real.sq_sqrt (by nlinarith)
  have hxpos2 : 0 < declX (jdOf dat) ^ 2 := by positivity
  have hXlt : asrX conf (declVal (jdOf dat)) ^ 2 < 1 := by
    rw [hXsq]
    nlinarith
  have hA : asrAngle conf (jdOf dat) = some (asrAngleVal conf (declVal (jdOf dat))) :=
    asrAngle_eval conf (jdOf dat) hx1 hXpos hXlt
  have hden : dcos ((conf.latitude : ℚ) : ℝ) * dcos (declVal (jdOf dat)) ≠ 0 := by
    rw [hlat]
    have hc : ((0 : ℚ) : ℝ) = 0 := by norm_num
    rw [hc, dcos_zero, one_mul]
    exact (dcos_declVal_pos _ hx1).ne'
  have hang2 : dcos (asrAngleVal conf (declVal (jdOf dat))) ^ 2 ≤ 1 / 2 :=
    dcos_asrAngleVal_sq_le conf (declVal (jdOf dat)) hm hXpos
  have hs : sVal conf (asrAngleVal conf (declVal (jdOf dat))) (declVal (jdOf dat)) ^ 2 < 1 := by
    rw [sVal_lat0 conf hlat _ _ hx1]
    rw [div_pow, Real.sq_sqrt (by nlinarith)]
    rw [div_lt_one (by nlinarith)]
    nlinarith
  have hT : timeForAngle conf (jdOf dat) (asrAngleVal conf (declVal (jdOf dat)))
      = some (hourAngle (sVal conf (asrAngleVal conf (declVal (jdOf dat)))
          (declVal (jdOf dat)))) :=
    timeForAngle_eval conf (jdOf dat) _ hx1 hden hs
  unfold asrTime
  rw [hA]
  show (timeForAngle conf (jdOf dat) (asrAngleVal conf (declVal (jdOf dat)))).map
      (fun t => dohrTime conf dat + t) = _
  rw [hT]
  rfl

/-- C7 witness: at the equator configuration on 1999-12-20 both Asr
computations complete, and the Hanafi Asr is strictly later. -/
theorem asr_hanafi_later_witness :
    dohrTime fixedConf ⟨1999, 12, 20⟩
        + hourAngle (sVal fixedConf
            (asrAngleVal fixedConf (declVal (jdOf ⟨1999, 12, 20⟩)))
            (declVal (jdOf ⟨1999, 12, 20⟩)))
      < dohrTime { fixedConf with asrMadhab := 2 } ⟨1999, 12, 20⟩
        + hourAngle (sVal { fixedConf with asrMadhab := 2 }
            (asrAngleVal { fixedConf with asrMadhab := 2 } (declVal (jdOf ⟨1999, 12, 20⟩)))
            (declVal (jdOf ⟨1999, 12, 20⟩))) := by
  have hx2 : declX (jdOf ⟨1999, 12, 20⟩) ^ 2 < 1 / 2 :=
    declX_sq_lt_half _ declEpsilon_ramadan_bounds.1 declEpsilon_ramadan_bounds.2
  have h1 : asrTime fixedConf ⟨1999, 12, 20⟩ = some (dohrTime fixedConf ⟨1999, 12, 20⟩
      + hourAngle (sVal fixedConf (asrAngleVal fixedConf (declVal (jdOf ⟨1999, 12, 20⟩)))
          (declVal (jdOf ⟨1999, 12, 20⟩)))) :=
    asrTime_lat0_eval fixedConf ⟨1999, 12, 20⟩ rfl (Nat.le_refl 1) hx2 declX_ramadan_ne
  have h2 : asrTime { fixedConf with asrMadhab := 2 } ⟨1999, 12, 20⟩
      = some (dohrTime { fixedConf with asrMadhab := 2 } ⟨1999, 12, 20⟩
        + hourAngle (sVal { fixedConf with asrMadhab := 2 }
            (asrAngleVal { fixedConf with asrMadhab := 2 } (declVal (jdOf ⟨1999, 12, 20⟩)))
            (declVal (jdOf ⟨1999, 12, 20⟩)))) :=
    asrTime_lat0_eval { fixedConf with asrMadhab := 2 } ⟨1999, 12, 20⟩ rfl
      (show (1 : ℕ) ≤ 2 by norm_num) hx2 declX_ramadan_ne
  exact asr_hanafi_later fixedConf ⟨1999, 12, 20⟩ rfl
    (show (-90 : ℚ) ≤ 0 by norm_num) (show (0 : ℚ) ≤ 90 by norm_num) _ _ h1 h2

/-! ### Claim C3: ordering of the prayer times -/

/-- Taylor enclosure of `sin` on a subinterval of `[0, 1]`. -/
theorem sin_interval {x lo hi : ℝ} (hlo : lo ≤ x) (hhi : x ≤ hi)
    (h0 : 0 ≤ lo) (h1 : hi ≤ 1) :
    lo - hi ^ 3 / 6 - hi ^ 4 * (5 / 96) ≤ Real.sin x ∧
    Real.sin x ≤ hi - lo ^ 3 / 6 + hi ^ 4 * (5 / 96) := by
  have hx0 : 0 ≤ x := le_trans h0 hlo
  have hx1 : x ≤ 1 := le_trans hhi h1
  have hb := Real.sin_bound (by rwa [abs_of_nonneg hx0])
  rw [abs_of_nonneg hx0] at hb
  have h2 := abs_le.mp hb
  have hc1 : lo ^ 3 ≤ x ^ 3 := pow_le_pow_left₀ h0 hlo 3
  have hc2 : x ^ 3 ≤ hi ^ 3 := pow_le_pow_left₀ hx0 hhi 3
  have hq : x ^ 4 ≤ hi ^ 4 := pow_le_pow_left₀ hx0 hhi 4
  have hq0 : (0 : ℝ) ≤ x ^ 4 := by positivity
  constructor
  · linarith [h2.1]
  · linarith [h2.2]

/-- Taylor enclosure of `cos` on a subinterval of `[0, 1]`. -/
theorem cos_interval {x lo hi : ℝ} (hlo : lo ≤ x) (hhi : x ≤ hi)
    (h0 : 0 ≤ lo) (h1 : hi ≤ 1) :
    1 - hi ^ 2 / 2 - hi ^ 4 * (5 / 96) ≤ Real.cos x ∧
    Real.cos x ≤ 1 - lo ^ 2 / 2 + hi ^ 4 * (5 / 96) := by
  have hx0 : 0 ≤ x := le_trans h0 hlo
  have hx1 : x ≤ 1 := le_trans hhi h1
  have hb := Real.cos_bound (by rw [abs_of_nonneg hx0]; exact hx1)
  rw [abs_of_nonneg hx0] at hb
  have h2 := abs_le.mp hb
  have hs1 : lo ^ 2 ≤ x ^ 2 := pow_le_pow_left₀ h0 hlo 2
  have hs2 : x ^ 2 ≤ hi ^ 2 := pow_le_pow_left₀ hx0 hhi 2
  have hq : x ^ 4 ≤ hi ^ 4 := pow_le_pow_left₀ hx0 hhi 4
  have hq0 : (0 : ℝ) ≤ x ^ 4 := by positivity
  constructor
  · linarith [h2.1]
  · linarith [h2.2]

/-- Quadratic lower bound of `cos` near zero from a bound on `|x|`. -/
theorem cos_lb_of_abs {x hi : ℝ} (h : |x| ≤ hi) (h1 : hi ≤ 1) :
    1 - hi ^ 2 / 2 - hi ^ 4 * (5 / 96) ≤ Real.cos x := by
  have hb := Real.cos_bound (le_trans h h1)
  have h2 := abs_le.mp hb
  have ha0 : (0 : ℝ) ≤ |x| := abs_nonneg x
  have hx2 : x ^ 2 ≤ hi ^ 2 := by
    have h3 : |x| ^ 2 ≤ hi ^ 2 := pow_le_pow_left₀ ha0 h 2
    rwa [sq_abs] at h3
  have hx4 : |x| ^ 4 ≤ hi ^ 4 := pow_le_pow_left₀ ha0 h 4
  linarith [h2.1]

/-- The configuration built by `PrayerConf(0, 53.5, 0, 6, 1, False)`:
latitude 53.5 N with method 6 (University of Islamic Sciences, Karachi,
12 degrees for both Fajr and Isha). -/
def cexConf : PrayerConf :=
  { longitude := 0
    latitude := 53.5
    timezone := 0
    sherookAngle := 90.83333
    maghrebAngle := 90.83333
    asrMadhab := 1
    middleLongitude := 0 * 15
    longitudeDifference := (0 * 15 - 0) / 15
    summerTime := false
    fajrAngle := .angle (12 + 90)
    ishaaAngle := .angle (12 + 90) }

theorem mkPrayerConf_cex_eval : mkPrayerConf 0 53.5 0 6 1 false = some cexConf := by
  have hsel : selectMethod 6 = some ⟨6, .angle 12, .angle 12⟩ := rfl
  unfold mkPrayerConf
  rw [hsel]
  rfl

theorem jd_summer_eval : jdOf ⟨2000, 6, 20⟩ = 2453240 - 3049 / 2 := by
  unfold jdOf gregorianToJulian
  norm_num [show gregorianToJulianInt 2000 6 20 = 2453240 from by decide]

theorem declEpsilon_summer_eval : declEpsilon (jdOf ⟨2000, 6, 20⟩) = 23.4399316 := by
  unfold declEpsilon
  rw [jd_summer_eval]
  push_cast
  norm_num

/-- The obliquity sine on 2000-06-20, to five digits. -/
theorem dsin_eps_summer_bounds :
    0.39752 ≤ dsin (declEpsilon (jdOf ⟨2000, 6, 20⟩)) ∧
    dsin (declEpsilon (jdOf ⟨2000, 6, 20⟩)) ≤ 0.39798 := by
  rw [declEpsilon_summer_eval]
  unfold dsin
  have hpi1 := Real.pi_gt_d6
  have hpi2 := Real.pi_lt_d6
  have ha1 : (0.204551 : ℝ) ≤ 23.4399316 * Real.pi / 360 := by nlinarith
  have ha2 : 23.4399316 * Real.pi / 360 ≤ 0.204553 := by nlinarith
  have hs := sin_interval ha1 ha2 (by norm_num) (by norm_num)
  have hc := cos_interval ha1 ha2 (by norm_num) (by norm_num)
  have hs1 : (0.20303 : ℝ) ≤ Real.sin (23.4399316 * Real.pi / 360) := by linarith [hs.1]
  have hs2 : Real.sin (23.4399316 * Real.pi / 360) ≤ 0.20322 := by linarith [hs.2]
  have hc1 : (0.97898 : ℝ) ≤ Real.cos (23.4399316 * Real.pi / 360) := by linarith [hc.1]
  have hc2 : Real.cos (23.4399316 * Real.pi / 360) ≤ 0.97918 := by linarith [hc.2]
  have h2 : (23.4399316 : ℝ) * Real.pi / 180 = 2 * (23.4399316 * Real.pi / 360) := by ring
  rw [h2, Real.sin_two_mul]
  have hm1 : (0.20303 : ℝ) * 0.97898 ≤ Real.sin (23.4399316 * Real.pi / 360)
      * Real.cos (23.4399316 * Real.pi / 360) :=
    mul_le_mul hs1 hc1 (by norm_num) (le_trans (by norm_num) hs1)
  have hm2 : Real.sin (23.4399316 * Real.pi / 360) * Real.cos (23.4399316 * Real.pi / 360)
      ≤ 0.20322 * 0.97918 :=
    mul_le_mul hs2 hc2 (le_trans (by norm_num) hc1) (by norm_num)
  constructor
  · linarith
  · linarith

/-- The ecliptic longitude term on 2000-06-20 lies near 449 degrees. -/
theorem declLambda_summer_bounds :
    447.0767 ≤ declLambda (jdOf ⟨2000, 6, 20⟩) ∧ declLambda (jdOf ⟨2000, 6, 20⟩) ≤ 450.9468 := by
  unfold declLambda
  rw [jd_summer_eval]
  push_cast
  constructor
  · nlinarith [neg_one_le_dsin (declG ((2453240 : ℚ) - 3049 / 2)),
      neg_one_le_dsin (2 * declG ((2453240 : ℚ) - 3049 / 2))]
  · nlinarith [dsin_le_one (declG ((2453240 : ℚ) - 3049 / 2)),
      dsin_le_one (2 * declG ((2453240 : ℚ) - 3049 / 2))]

/-- On 2000-06-20 the longitude sine is within 3 degrees of its summer
solstice peak, hence at least `0.99869`. -/
theorem dsin_lambda_summer_lb : 0.99869 ≤ dsin (declLambda (jdOf ⟨2000, 6, 20⟩)) := by
  have hl := declLambda_summer_bounds
  unfold dsin
  have hpi1 := Real.pi_gt_d6
  have hpi2 := Real.pi_lt_d6
  have hpi0 := Real.pi_pos
  have hsplit : declLambda (jdOf ⟨2000, 6, 20⟩) * Real.pi / 180
      = ((declLambda (jdOf ⟨2000, 6, 20⟩) - 450) * Real.pi / 180 + Real.pi / 2)
        + 2 * Real.pi := by
    ring
  rw [hsplit, Real.sin_add_two_pi, Real.sin_add_pi_div_two]
  have habs : |(declLambda (jdOf ⟨2000, 6, 20⟩) - 450) * Real.pi / 180| ≤ 0.05103 := by
    rw [abs_le]
    constructor
    · nlinarith [hl.1, hl.2]
    · nlinarith [hl.1, hl.2]
  have hlb := cos_lb_of_abs habs (by norm_num)
  linarith

/-- The declination sine product on 2000-06-20, to five digits. -/
theorem declX_summer_bounds :
    0.39699 ≤ declX (jdOf ⟨2000, 6, 20⟩) ∧ declX (jdOf ⟨2000, 6, 20⟩) ≤ 0.39798 := by
  have he := dsin_eps_summer_bounds
  have hll := dsin_lambda_summer_lb
  have hl1 : dsin (declLambda (jdOf ⟨2000, 6, 20⟩)) ≤ 1 := dsin_le_one _
  unfold declX
  constructor
  · have hm : (0.39752 : ℝ) * 0.99869 ≤ dsin (declEpsilon (jdOf ⟨2000, 6, 20⟩))
        * dsin (declLambda (jdOf ⟨2000, 6, 20⟩)) :=
      mul_le_mul he.1 hll (by norm_num) (le_trans (by norm_num) he.1)
    linarith
  · have hm : dsin (declEpsilon (jdOf ⟨2000, 6, 20⟩)) * dsin (declLambda (jdOf ⟨2000, 6, 20⟩))
        ≤ 0.39798 * 1 :=
      mul_le_mul he.2 hl1 (le_trans (by norm_num) hll) (by norm_num)
    linarith

set_option maxHeartbeats 1600000 in
/-- Sine and cosine of the counterexample latitude 53.5 N, to five
digits, by two angle halvings. -/
theorem lat535_trig_bounds :
    (0.80293 ≤ dsin (53.5 : ℝ) ∧ dsin (53.5 : ℝ) ≤ 0.80456) ∧
    (0.59426 ≤ dcos (53.5 : ℝ) ∧ dcos (53.5 : ℝ) ≤ 0.59563) := by
  have hpi1 := Real.pi_gt_d6
  have hpi2 := Real.pi_lt_d6
  have hv1 : (0.233437 : ℝ) ≤ 53.5 * Real.pi / 720 := by nlinarith
  have hv2 : 53.5 * Real.pi / 720 ≤ 0.233438 := by nlinarith
  have hsv := sin_interval hv1 hv2 (by norm_num) (by norm_num)
  have hcv := cos_interval hv1 hv2 (by norm_num) (by norm_num)
  have hsv1 : (0.231162 : ℝ) ≤ Real.sin (53.5 * Real.pi / 720) := by linarith [hsv.1]
  have hsv2 : Real.sin (53.5 * Real.pi / 720) ≤ 0.231473 := by linarith [hsv.2]
  have hcv1 : (0.972598 : ℝ) ≤ Real.cos (53.5 * Real.pi / 720) := by linarith [hcv.1]
  have hcv2 : Real.cos (53.5 * Real.pi / 720) ≤ 0.972909 := by linarith [hcv.2]
  have hh : (53.5 : ℝ) * Real.pi / 360 = 2 * (53.5 * Real.pi / 720) := by ring
  have hsh1 : (0.449655 : ℝ) ≤ Real.sin (53.5 * Real.pi / 360) := by
    rw [hh, Real.sin_two_mul]
    have := mul_le_mul hsv1 hcv1 (by norm_num) (le_trans (by norm_num) hsv1)
    linarith
  have hsh2 : Real.sin (53.5 * Real.pi / 360) ≤ 0.450405 := by
    rw [hh, Real.sin_two_mul]
    have := mul_le_mul hsv2 hcv2 (le_trans (by norm_num) hcv1) (by norm_num)
    linarith
  have hch : Real.cos (53.5 * Real.pi / 360) = 1 - 2 * Real.sin (53.5 * Real.pi / 720) ^ 2 := by
    rw [hh, Real.cos_two_mul, Real.cos_sq']
    ring
  have hch1 : (0.892840 : ℝ) ≤ Real.cos (53.5 * Real.pi / 360) := by
    rw [hch]
    nlinarith [hsv1, hsv2]
  have hch2 : Real.cos (53.5 * Real.pi / 360) ≤ 0.893129 := by
    rw [hch]
    nlinarith [hsv1, hsv2]
  have hf : (53.5 : ℝ) * Real.pi / 180 = 2 * (53.5 * Real.pi / 360) := by ring
  constructor
  · constructor
    · unfold dsin
      rw [hf, Real.sin_two_mul]
      have := mul_le_mul hsh1 hch1 (by norm_num) (le_trans (by norm_num) hsh1)
      linarith
    · unfold dsin
      rw [hf, Real.sin_two_mul]
      have := mul_le_mul hsh2 hch2 (le_trans (by norm_num) hch1) (by norm_num)
      linarith
  · have hcf : dcos (53.5 : ℝ) = 1 - 2 * Real.sin (53.5 * Real.pi / 360) ^ 2 := by
      unfold dcos
      rw [hf, Real.cos_two_mul, Real.cos_sq']
      ring
    constructor
    · rw [hcf]
      nlinarith [hsh1, hsh2]
    · rw [hcf]
      nlinarith [hsh1, hsh2]

/-- Cosine of the stored night-angle 102 degrees (12 + 90), to five
digits: it is minus sine of 12 degrees. -/
theorem dcos102_bounds :
    -0.208011 ≤ dcos (102 : ℝ) ∧ dcos (102 : ℝ) ≤ -0.207806 := by
  unfold dcos
  rw [show (102 : ℝ) * Real.pi / 180 = 12 * Real.pi / 180 + Real.pi / 2 by ring,
    Real.cos_add_pi_div_two]
  have hpi1 := Real.pi_gt_d6
  have hpi2 := Real.pi_lt_d6
  have hw1 : (0.209439 : ℝ) ≤ 12 * Real.pi / 180 := by nlinarith
  have hw2 : 12 * Real.pi / 180 ≤ 0.209440 := by nlinarith
  have hs := sin_interval hw1 hw2 (by norm_num) (by norm_num)
  constructor
  · have h2 : Real.sin (12 * Real.pi / 180) ≤ 0.208011 := by linarith [hs.2]
    linarith
  · have h1 : (0.207806 : ℝ) ≤ Real.sin (12 * Real.pi / 180) := by linarith [hs.1]
    linarith

/-- Cosine of the horizon-depression angle 90.83333 degrees, to six
digits: it is minus sine of 0.83333 degrees. -/
theorem dcos9083_bounds :
    -0.0145445 ≤ dcos ((90.83333 : ℚ) : ℝ) ∧ dcos ((90.83333 : ℚ) : ℝ) ≤ -0.0145437 := by
  have hc : ((90.83333 : ℚ) : ℝ) = 90.83333 := by norm_num
  rw [hc]
  unfold dcos
  rw [show (90.83333 : ℝ) * Real.pi / 180 = 0.83333 * Real.pi / 180 + Real.pi / 2 by ring,
    Real.cos_add_pi_div_two]
  have hpi1 := Real.pi_gt_d6
  have hpi2 := Real.pi_lt_d6
  have hw1 : (0.0145443 : ℝ) ≤ 0.83333 * Real.pi / 180 := by nlinarith
  have hw2 : 0.83333 * Real.pi / 180 ≤ 0.0145445 := by nlinarith
  have hs := sin_interval hw1 hw2 (by norm_num) (by norm_num)
  constructor
  · have h2 : Real.sin (0.83333 * Real.pi / 180) ≤ 0.0145445 := by linarith [hs.2]
    linarith
  · have h1 : (0.0145437 : ℝ) ≤ Real.sin (0.83333 * Real.pi / 180) := by linarith [hs.1]
    linarith

/-- The declination cosine on 2000-06-20, to six digits. -/
theorem sqrt_summer_bounds :
    0.917392 ≤ Real.sqrt (1 - declX (jdOf ⟨2000, 6, 20⟩) ^ 2) ∧
    Real.sqrt (1 - declX (jdOf ⟨2000, 6, 20⟩) ^ 2) ≤ 0.917830 := by
  have hx := declX_summer_bounds
  constructor
  · have h1 : (0.917392 : ℝ) ^ 2 ≤ 1 - declX (jdOf ⟨2000, 6, 20⟩) ^ 2 := by
      nlinarith [hx.1, hx.2]
    have h2 := Real.sqrt_le_sqrt h1
    rwa [Real.sqrt_sq (by norm_num)] at h2
  · have h1 : 1 - declX (jdOf ⟨2000, 6, 20⟩) ^ 2 ≤ (0.917830 : ℝ) ^ 2 := by
      nlinarith [hx.1, hx.2]
    have h2 := Real.sqrt_le_sqrt h1
    rwa [Real.sqrt_sq (by norm_num)] at h2

/-- The Isha hour-angle cosine ratio at the counterexample
configuration on 2000-06-20: deep in the fourth quadrant. -/
theorem sVal_cex_ishaa_bounds :
    -0.9691 ≤ sVal cexConf (102 : ℝ) (declVal (jdOf ⟨2000, 6, 20⟩)) ∧
    sVal cexConf (102 : ℝ) (declVal (jdOf ⟨2000, 6, 20⟩)) ≤ -0.9629 := by
  have hx := declX_summer_bounds
  have hx1 : declX (jdOf ⟨2000, 6, 20⟩) ^ 2 < 1 := by nlinarith [hx.1, hx.2]
  have hr := sqrt_summer_bounds
  have h102 := dcos102_bounds
  have hst := lat535_trig_bounds.1
  have hct := lat535_trig_bounds.2
  unfold sVal
  rw [dsin_declVal _ hx1, dcos_declVal _ hx1]
  have hlat : ((cexConf.latitude : ℚ) : ℝ) = 53.5 := by norm_num [cexConf]
  rw [hlat]
  have hP1 : (0.318715 : ℝ) ≤ dsin 53.5 * declX (jdOf ⟨2000, 6, 20⟩) := by
    have := mul_le_mul hst.1 hx.1 (by norm_num) (le_trans (by norm_num) hst.1)
    linarith
  have hP2 : dsin 53.5 * declX (jdOf ⟨2000, 6, 20⟩) ≤ 0.320200 := by
    have := mul_le_mul hst.2 hx.2 (le_trans (by norm_num) hx.1) (by norm_num)
    linarith
  have hB1 : (0.54516 : ℝ) ≤ dcos 53.5 * Real.sqrt (1 - declX (jdOf ⟨2000, 6, 20⟩) ^ 2) := by
    have := mul_le_mul hct.1 hr.1 (by norm_num) (le_trans (by norm_num) hct.1)
    linarith
  have hB2 : dcos 53.5 * Real.sqrt (1 - declX (jdOf ⟨2000, 6, 20⟩) ^ 2) ≤ 0.54670 := by
    have := mul_le_mul hct.2 hr.2 (le_trans (by norm_num) hr.1) (by norm_num)
    linarith
  have hBpos : (0 : ℝ) < dcos 53.5 * Real.sqrt (1 - declX (jdOf ⟨2000, 6, 20⟩) ^ 2) := by
    linarith
  constructor
  · rw [le_div_iff₀ hBpos]
    linarith [h102.1, hP2, hB1]
  · rw [div_le_iff₀ hBpos]
    linarith [h102.2, hP1, hB2]

/-- The Maghrib hour-angle cosine ratio at the counterexample
configuration on 2000-06-20: negative but above `-0.6146`. -/
theorem sVal_cex_maghreb_bounds :
    -0.6146 ≤ sVal cexConf ((90.83333 : ℚ) : ℝ) (declVal (jdOf ⟨2000, 6, 20⟩)) ∧
    sVal cexConf ((90.83333 : ℚ) : ℝ) (declVal (jdOf ⟨2000, 6, 20⟩)) < 0 := by
  have hx := declX_summer_bounds
  have hx1 : declX (jdOf ⟨2000, 6, 20⟩) ^ 2 < 1 := by nlinarith [hx.1, hx.2]
  have hr := sqrt_summer_bounds
  have h908 := dcos9083_bounds
  have hst := lat535_trig_bounds.1
  have hct := lat535_trig_bounds.2
  unfold sVal
  rw [dsin_declVal _ hx1, dcos_declVal _ hx1]
  have hlat : ((cexConf.latitude : ℚ) : ℝ) = 53.5 := by norm_num [cexConf]
  rw [hlat]
  have hP1 : (0.318715 : ℝ) ≤ dsin 53.5 * declX (jdOf ⟨2000, 6, 20⟩) := by
    have := mul_le_mul hst.1 hx.1 (by norm_num) (le_trans (by norm_num) hst.1)
    linarith
  have hP2 : dsin 53.5 * declX (jdOf ⟨2000, 6, 20⟩) ≤ 0.320200 := by
    have := mul_le_mul hst.2 hx.2 (le_trans (by norm_num) hx.1) (by norm_num)
    linarith
  have hB1 : (0.54516 : ℝ) ≤ dcos 53.5 * Real.sqrt (1 - declX (jdOf ⟨2000, 6, 20⟩) ^ 2) := by
    have := mul_le_mul hct.1 hr.1 (by norm_num) (le_trans (by norm_num) hct.1)
    linarith
  have hB2 : dcos 53.5 * Real.sqrt (1 - declX (jdOf ⟨2000, 6, 20⟩) ^ 2) ≤ 0.54670 := by
    have := mul_le_mul hct.2 hr.2 (le_trans (by norm_num) hr.1) (by norm_num)
    linarith
  have hBpos : (0 : ℝ) < dcos 53.5 * Real.sqrt (1 - declX (jdOf ⟨2000, 6, 20⟩) ^ 2) := by
    linarith
  constructor
  · rw [le_div_iff₀ hBpos]
    linarith [h908.1, hP2, hB1]
  · apply div_neg_of_neg_of_pos _ hBpos
    linarith [h908.2, hP1]

set_option maxHeartbeats 1000000 in
/-- C3 (counterexample): at latitude 53.5 N with method 6 on 2000-06-20,
Isha and Midnight both get computed, but Midnight falls strictly before
Isha: the claimed chain `... < Isha < Midnight` fails at its last link. -/
theorem prayer_times_ordering_cex :
    mkPrayerConf 0 53.5 0 6 1 false = some cexConf ∧
    ∃ i md, ishaaTime cexConf ⟨2000, 6, 20⟩ 0 = some i ∧
      midnightTime cexConf ⟨2000, 6, 20⟩ = some md ∧ md < i := by
  refine ⟨mkPrayerConf_cex_eval, ?_⟩
  have hcast1 : ((12 + 90 : ℚ) : ℝ) = (102 : ℝ) := by norm_num
  have hx := declX_summer_bounds
  have hx1 : declX (jdOf ⟨2000, 6, 20⟩) ^ 2 < 1 := by nlinarith [hx.1, hx.2]
  have hsi := sVal_cex_ishaa_bounds
  have hsm := sVal_cex_maghreb_bounds
  have hsi2 : sVal cexConf (102 : ℝ) (declVal (jdOf ⟨2000, 6, 20⟩)) ^ 2 < 1 := by
    nlinarith [hsi.1, hsi.2]
  have hsm2 : sVal cexConf ((90.83333 : ℚ) : ℝ) (declVal (jdOf ⟨2000, 6, 20⟩)) ^ 2 < 1 := by
    nlinarith [hsm.1, hsm.2]
  have hlat : ((cexConf.latitude : ℚ) : ℝ) = 53.5 := by norm_num [cexConf]
  have hden : dcos ((cexConf.latitude : ℚ) : ℝ) * dcos (declVal (jdOf ⟨2000, 6, 20⟩)) ≠ 0 := by
    rw [hlat, dcos_declVal _ hx1]
    have hct := lat535_trig_bounds.2
    have hr := sqrt_summer_bounds
    exact (mul_pos (lt_of_lt_of_le (by norm_num) hct.1)
      (lt_of_lt_of_le (by norm_num) hr.1)).ne'
  have hTi := timeForAngle_eval cexConf (jdOf ⟨2000, 6, 20⟩) (102 : ℝ) hx1 hden hsi2
  have hTm := timeForAngle_eval cexConf (jdOf ⟨2000, 6, 20⟩) ((90.83333 : ℚ) : ℝ) hx1 hden hsm2
  have hIsha : ishaaTime cexConf ⟨2000, 6, 20⟩ 0 = some (dohrTime cexConf ⟨2000, 6, 20⟩
      + hourAngle (sVal cexConf (102 : ℝ) (declVal (jdOf ⟨2000, 6, 20⟩)))) := by
    show (timeForAngle cexConf (jdOf ⟨2000, 6, 20⟩) ((12 + 90 : ℚ) : ℝ)).map
        (fun t => dohrTime cexConf ⟨2000, 6, 20⟩ + t) = _
    rw [hcast1, hTi]
    rfl
  have hFajr : fajrTime cexConf ⟨2000, 6, 20⟩ = some (dohrTime cexConf ⟨2000, 6, 20⟩
      - hourAngle (sVal cexConf (102 : ℝ) (declVal (jdOf ⟨2000, 6, 20⟩)))) := by
    show (timeForAngle cexConf (jdOf ⟨2000, 6, 20⟩) ((12 + 90 : ℚ) : ℝ)).map
        (fun t => dohrTime cexConf ⟨2000, 6, 20⟩ - t) = _
    rw [hcast1, hTi]
    rfl
  have hMag : maghrebTime cexConf ⟨2000, 6, 20⟩ = some (dohrTime cexConf ⟨2000, 6, 20⟩
      + hourAngle (sVal cexConf ((90.83333 : ℚ) : ℝ) (declVal (jdOf ⟨2000, 6, 20⟩)))) := by
    unfold maghrebTime
    rw [show ((cexConf.maghrebAngle : ℚ) : ℝ) = ((90.83333 : ℚ) : ℝ) from rfl, hTm]
    rfl
  have hMid : midnightTime cexConf ⟨2000, 6, 20⟩ = some ((dohrTime cexConf ⟨2000, 6, 20⟩
      + hourAngle (sVal cexConf ((90.83333 : ℚ) : ℝ) (declVal (jdOf ⟨2000, 6, 20⟩))))
      + (24 - ((dohrTime cexConf ⟨2000, 6, 20⟩
          + hourAngle (sVal cexConf ((90.83333 : ℚ) : ℝ) (declVal (jdOf ⟨2000, 6, 20⟩))))
        - (dohrTime cexConf ⟨2000, 6, 20⟩
          - hourAngle (sVal cexConf (102 : ℝ)
              (declVal (jdOf ⟨2000, 6, 20⟩)))))) / 2) := by
    unfold midnightTime
    rw [hMag, hFajr]
  refine ⟨_, _, hIsha, hMid, ?_⟩
  have hArcI : 0.91 * Real.pi < Real.arccos (sVal cexConf (102 : ℝ)
      (declVal (jdOf ⟨2000, 6, 20⟩))) := by
    have hpi1 := Real.pi_gt_d6
    have hpi2 := Real.pi_lt_d6
    have ha1 : (0.282743 : ℝ) ≤ 0.09 * Real.pi := by nlinarith
    have ha2 : 0.09 * Real.pi ≤ 0.282744 := by nlinarith
    have hc := cos_interval ha1 ha2 (by norm_num) (by norm_num)
    have hc2 : Real.cos (0.09 * Real.pi) ≤ 0.960362 := by linarith [hc.2]
    have hc91 : Real.cos (0.91 * Real.pi) = -Real.cos (0.09 * Real.pi) := by
      rw [show (0.91 : ℝ) * Real.pi = Real.pi - 0.09 * Real.pi by ring, Real.cos_pi_sub]
    have hlt : sVal cexConf (102 : ℝ) (declVal (jdOf ⟨2000, 6, 20⟩))
        < Real.cos (0.91 * Real.pi) := by
      rw [hc91]
      linarith [hsi.2]
    have hmem1 : sVal cexConf (102 : ℝ) (declVal (jdOf ⟨2000, 6, 20⟩))
        ∈ Set.Icc (-1 : ℝ) 1 := by
      constructor
      · linarith [hsi.1]
      · linarith [hsi.2]
    have hmem2 : Real.cos (0.91 * Real.pi) ∈ Set.Icc (-1 : ℝ) 1 :=
      ⟨Real.neg_one_le_cos _, Real.cos_le_one _⟩
    have harc := Real.strictAntiOn_arccos hmem1 hmem2 hlt
    rwa [Real.arccos_cos (by nlinarith [Real.pi_pos]) (by nlinarith [Real.pi_pos])] at harc
  have hArcM : Real.arccos (sVal cexConf ((90.83333 : ℚ) : ℝ)
      (declVal (jdOf ⟨2000, 6, 20⟩))) < 0.72 * Real.pi := by
    have hpi1 := Real.pi_gt_d6
    have hpi2 := Real.pi_lt_d6
    have hb1 : (0.439822 : ℝ) ≤ 0.14 * Real.pi := by nlinarith
    have hb2 : 0.14 * Real.pi ≤ 0.439824 := by nlinarith
    have hs := sin_interval hb1 hb2 (by norm_num) (by norm_num)
    have hs1 : (0.423689 : ℝ) ≤ Real.sin (0.14 * Real.pi) := by linarith [hs.1]
    have hs2 : Real.sin (0.14 * Real.pi) ≤ 0.427593 := by linarith [hs.2]
    have hc28 : Real.cos (0.28 * Real.pi) = 1 - 2 * Real.sin (0.14 * Real.pi) ^ 2 := by
      rw [show (0.28 : ℝ) * Real.pi = 2 * (0.14 * Real.pi) by ring, Real.cos_two_mul,
        Real.cos_sq']
      ring
    have hc28lb : (0.634312 : ℝ) ≤ Real.cos (0.28 * Real.pi) := by
      rw [hc28]
      nlinarith [hs1, hs2]
    have hc72 : Real.cos (0.72 * Real.pi) = -Real.cos (0.28 * Real.pi) := by
      rw [show (0.72 : ℝ) * Real.pi = Real.pi - 0.28 * Real.pi by ring, Real.cos_pi_sub]
    have hlt : Real.cos (0.72 * Real.pi)
        < sVal cexConf ((90.83333 : ℚ) : ℝ) (declVal (jdOf ⟨2000, 6, 20⟩)) := by
      rw [hc72]
      linarith [hsm.1]
    have hmem1 : Real.cos (0.72 * Real.pi) ∈ Set.Icc (-1 : ℝ) 1 :=
      ⟨Real.neg_one_le_cos _, Real.cos_le_one _⟩
    have hmem2 : sVal cexConf ((90.83333 : ℚ) : ℝ) (declVal (jdOf ⟨2000, 6, 20⟩))
        ∈ Set.Icc (-1 : ℝ) 1 := by
      constructor
      · linarith [hsm.1]
      · linarith [hsm.2]
    have harc := Real.strictAntiOn_arccos hmem1 hmem2 hlt
    rwa [Real.arccos_cos (by nlinarith [Real.pi_pos]) (by nlinarith [Real.pi_pos])] at harc
  have hfac : (0 : ℝ) < 12 / Real.pi := div_pos (by norm_num) Real.pi_pos
  have ht1 : 12 / Real.pi * (0.91 * Real.pi)
      < 12 / Real.pi * Real.arccos (sVal cexConf (102 : ℝ)
          (declVal (jdOf ⟨2000, 6, 20⟩))) :=
    mul_lt_mul_of_pos_left hArcI hfac
  have ht2 : 12 / Real.pi * Real.arccos (sVal cexConf ((90.83333 : ℚ) : ℝ)
      (declVal (jdOf ⟨2000, 6, 20⟩))) < 12 / Real.pi * (0.72 * Real.pi) :=
    mul_lt_mul_of_pos_left hArcM hfac
  have he1 : 12 / Real.pi * (0.91 * Real.pi) = 10.92 := by
    field_simp
    ring
  have he2 : 12 / Real.pi * (0.72 * Real.pi) = 8.64 := by
    field_simp
    ring
  rw [hourAngle_eq_arccos _ hsi2, hourAngle_eq_arccos _ hsm2]
  rw [he1] at ht1
  rw [he2] at ht2
  linarith [ht1, ht2]

/-- The hour-angle offset is positive whenever its ratio `s` passes the
guard `s^2 < 1`. -/
theorem hourAngle_pos {s : ℝ} (h : s ^ 2 < 1) : 0 < hourAngle s := by
  rw [hourAngle_eq_arccos _ h]
  apply mul_pos (div_pos (by norm_num) Real.pi_pos)
  apply Real.arccos_pos.mpr
  nlinarith [sq_nonneg (s - 1), sq_nonneg (s + 1)]

/-- The hour-angle offset is strictly antitone in the ratio `s`. -/
theorem hourAngle_lt {s1 s2 : ℝ} (h1 : s1 ^ 2 < 1) (h2 : s2 ^ 2 < 1) (h : s1 < s2) :
    hourAngle s2 < hourAngle s1 := by
  rw [hourAngle_eq_arccos _ h1, hourAngle_eq_arccos _ h2]
  apply mul_lt_mul_of_pos_left _ (div_pos (by norm_num) Real.pi_pos)
  exact Real.strictAntiOn_arccos
    ⟨by nlinarith [sq_nonneg (s1 + 1)], by nlinarith [sq_nonneg (s1 - 1)]⟩
    ⟨by nlinarith [sq_nonneg (s2 + 1)], by nlinarith [sq_nonneg (s2 - 1)]⟩ h

/-- Degree cosine is strictly antitone on `[0, 180]`. -/
theorem dcos_lt_dcos {A1 A2 : ℝ} (h0 : 0 ≤ A1) (h : A1 < A2) (h180 : A2 ≤ 180) :
    dcos A2 < dcos A1 := by
  unfold dcos
  have hpi := Real.pi_pos
  apply Real.strictAntiOn_cos
  · constructor
    · exact div_nonneg (mul_nonneg h0 hpi.le) (by norm_num)
    · nlinarith
  · constructor
    · have h02 : 0 ≤ A2 := le_trans h0 h.le
      exact div_nonneg (mul_nonneg h02 hpi.le) (by norm_num)
    · nlinarith
  · nlinarith

/-- For a latitude within `[-90, 90]` and a defined declination, a
nonzero hour-angle denominator is in fact positive. -/
theorem denom_pos_of_lat (conf : PrayerConf) (jd : ℚ)
    (hlat1 : -90 ≤ conf.latitude) (hlat2 : conf.latitude ≤ 90)
    (hx1 : declX jd ^ 2 < 1)
    (hden : dcos ((conf.latitude : ℚ) : ℝ) * dcos (declVal jd) ≠ 0) :
    0 < dcos ((conf.latitude : ℚ) : ℝ) * dcos (declVal jd) := by
  have hdpos : 0 < dcos (declVal jd) := dcos_declVal_pos _ hx1
  have hcosLnn : 0 ≤ dcos ((conf.latitude : ℚ) : ℝ) := by
    unfold dcos
    apply Real.cos_nonneg_of_mem_Icc
    have hc1 : (-90 : ℝ) ≤ ((conf.latitude : ℚ) : ℝ) := by exact_mod_cast hlat1
    have hc2 : ((conf.latitude : ℚ) : ℝ) ≤ 90 := by exact_mod_cast hlat2
    constructor
    · nlinarith [Real.pi_pos]
    · nlinarith [Real.pi_pos]
  have hne : dcos ((conf.latitude : ℚ) : ℝ) ≠ 0 := fun h0 => hden (by rw [h0, zero_mul])
  exact mul_pos (lt_of_le_of_ne hcosLnn (Ne.symm hne)) hdpos

set_option maxHeartbeats 1000000 in
/-- The ordering chain Fajr < Sunrise < Dhuhr < Asr < Maghrib < Isha,
for any configuration with the standard twilight/horizon angles whose
night angles exceed the horizon-depression angle, whenever all five
guarded computations complete. -/
theorem ordering_core (conf : PrayerConf) (dat : GregorianDate) (c : ℤ)
    (hlat1 : -90 ≤ conf.latitude) (hlat2 : conf.latitude ≤ 90)
    (hsher : conf.sherookAngle = 90.83333) (hmag : conf.maghrebAngle = 90.83333)
    (hfa : ∃ fa : ℚ, conf.fajrAngle = .angle fa ∧ 90.83333 < fa ∧ fa ≤ 180)
    (hia : (∃ ia : ℚ, conf.ishaaAngle = .angle ia ∧ 90.83333 < ia ∧ ia ≤ 180)
      ∨ ∃ ay ram : ℚ, conf.ishaaAngle = .fixed ay ram ∧ 0 < ay ∧ 0 < ram)
    (f sr a m i : ℝ)
    (hf : fajrTime conf dat = some f) (hsr : sherookTime conf dat = some sr)
    (ha : asrTime conf dat = some a) (hm : maghrebTime conf dat = some m)
    (hi : ishaaTime conf dat c = some i) :
    f < sr ∧ sr < dohrTime conf dat ∧ dohrTime conf dat < a ∧ a < m ∧ m < i := by
  obtain ⟨fa, hfaEq, hfa1, hfa2⟩ := hfa
  unfold sherookTime at hsr
  obtain ⟨tsr, htsr, hsrv⟩ := Option.map_eq_some'.mp hsr
  have hsrv2 : dohrTime conf dat - tsr = sr := hsrv
  unfold fajrTime at hf
  rw [hfaEq] at hf
  obtain ⟨tf, htf, hfv⟩ := Option.map_eq_some'.mp hf
  have hfv2 : dohrTime conf dat - tf = f := hfv
  obtain ⟨ang, ta, hA, hT, hav⟩ := asrTime_some_elim conf dat a ha
  obtain ⟨e3, he3, hXsq, hXne, hangv⟩ := asrAngle_some_elim conf _ _ hA
  obtain ⟨_, he3v⟩ := sunDeclination_some_elim _ _ he3
  subst he3v
  unfold maghrebTime at hm
  obtain ⟨tm, htm, hmv⟩ := Option.map_eq_some'.mp hm
  have hmv2 : dohrTime conf dat + tm = m := hmv
  obtain ⟨e1, he1, hden1, hssr, htsrv⟩ := timeForAngle_some_elim conf _ _ _ htsr
  obtain ⟨hx1, he1v⟩ := sunDeclination_some_elim _ _ he1
  subst he1v
  obtain ⟨e2, he2, hden2, hsf, htfv⟩ := timeForAngle_some_elim conf _ _ _ htf
  obtain ⟨_, he2v⟩ := sunDeclination_some_elim _ _ he2
  subst he2v
  obtain ⟨e4, he4, hden4, hsa, htav⟩ := timeForAngle_some_elim conf _ _ _ hT
  obtain ⟨_, he4v⟩ := sunDeclination_some_elim _ _ he4
  subst he4v
  obtain ⟨e5, he5, hden5, hsm', htmv⟩ := timeForAngle_some_elim conf _ _ _ htm
  obtain ⟨_, he5v⟩ := sunDeclination_some_elim _ _ he5
  subst he5v
  rw [hangv] at hsa htav
  have hB := denom_pos_of_lat conf (jdOf dat) hlat1 hlat2 hx1 hden1
  have hc908 : ((90.83333 : ℚ) : ℝ) = (90.83333 : ℝ) := by norm_num
  -- Fajr < Sunrise
  have hcosfs : dcos ((fa : ℚ) : ℝ) < dcos ((conf.sherookAngle : ℚ) : ℝ) := by
    rw [hsher]
    exact dcos_lt_dcos (by norm_num) (Rat.cast_lt.mpr hfa1)
      (le_trans (Rat.cast_le.mpr hfa2) (by norm_num))
  have hsfs : sVal conf ((fa : ℚ) : ℝ) (declVal (jdOf dat))
      < sVal conf ((conf.sherookAngle : ℚ) : ℝ) (declVal (jdOf dat)) := by
    unfold sVal
    exact (div_lt_div_iff_of_pos_right hB).mpr (by linarith)
  have hfs := hourAngle_lt hsf hssr hsfs
  -- Sunrise < Dhuhr, Dhuhr < Asr
  have hsrpos := hourAngle_pos hssr
  have hapos := hourAngle_pos hsa
  -- Asr < Maghrib
  have hcosam : dcos ((conf.maghrebAngle : ℚ) : ℝ)
      < dcos (asrAngleVal conf (declVal (jdOf dat))) := by
    have hpos : 0 < dcos (asrAngleVal conf (declVal (jdOf dat))) := by
      rw [dcos_asrAngleVal]
      positivity
    have hneg : dcos ((conf.maghrebAngle : ℚ) : ℝ) < 0 := by
      rw [hmag, hc908]
      exact dcos_neg_of (by norm_num) (by norm_num)
    linarith
  have hsam : sVal conf ((conf.maghrebAngle : ℚ) : ℝ) (declVal (jdOf dat))
      < sVal conf (asrAngleVal conf (declVal (jdOf dat))) (declVal (jdOf dat)) := by
    unfold sVal
    exact (div_lt_div_iff_of_pos_right hB).mpr (by linarith)
  have ham := hourAngle_lt hsm' hsa hsam
  refine ⟨by linarith [hfs, hsrv2, hfv2, htsrv, htfv], by linarith [hsrpos, hsrv2, htsrv],
    by linarith [hapos, hav, htav], by linarith [ham, hav, htav, hmv2, htmv], ?_⟩
  -- Maghrib < Isha
  rcases hia with ⟨ia, hiaEq, hia1, hia2⟩ | ⟨ay, ram, hiaEq, hay, hram⟩
  · unfold ishaaTime at hi
    rw [hiaEq] at hi
    obtain ⟨ti, hti, hiv⟩ := Option.map_eq_some'.mp hi
    have hiv2 : dohrTime conf dat + ti = i := hiv
    obtain ⟨e6, he6, hden6, hsi', htiv⟩ := timeForAngle_some_elim conf _ _ _ hti
    obtain ⟨_, he6v⟩ := sunDeclination_some_elim _ _ he6
    subst he6v
    have hcosim : dcos ((ia : ℚ) : ℝ) < dcos ((conf.maghrebAngle : ℚ) : ℝ) := by
      rw [hmag]
      exact dcos_lt_dcos (by norm_num) (Rat.cast_lt.mpr hia1)
        (le_trans (Rat.cast_le.mpr hia2) (by norm_num))
    have hsim : sVal conf ((ia : ℚ) : ℝ) (declVal (jdOf dat))
        < sVal conf ((conf.maghrebAngle : ℚ) : ℝ) (declVal (jdOf dat)) := by
      unfold sVal
      exact (div_lt_div_iff_of_pos_right hB).mpr (by linarith)
    have hmi := hourAngle_lt hsi' hsm' hsim
    linarith [hmi, hmv2, htmv, hiv2, htiv]
  · have hI : ishaaTime conf dat c = some ((if hijriMonthOf dat.year dat.month dat.day c = 9
        then ((ram : ℚ) : ℝ) / 60 else ((ay : ℚ) : ℝ) / 60) + dohrTime conf dat + tm) := by
      unfold ishaaTime
      rw [hiaEq]
      show (timeForAngle conf (jdOf dat) ((conf.maghrebAngle : ℚ) : ℝ)).map
          (fun t => (if hijriMonthOf dat.year dat.month dat.day c = 9
            then ((ram : ℚ) : ℝ) / 60 else ((ay : ℚ) : ℝ) / 60) + dohrTime conf dat + t) = _
      rw [htm]
      rfl
    rw [hI] at hi
    have hieq : (if hijriMonthOf dat.year dat.month dat.day c = 9
        then ((ram : ℚ) : ℝ) / 60 else ((ay : ℚ) : ℝ) / 60) + dohrTime conf dat + tm = i :=
      Option.some.inj hi
    have htam : 0 < (if hijriMonthOf dat.year dat.month dat.day c = 9
        then ((ram : ℚ) : ℝ) / 60 else ((ay : ℚ) : ℝ) / 60) := by
      split_ifs
      · exact div_pos (by exact_mod_cast hram) (by norm_num)
      · exact div_pos (by exact_mod_cast hay) (by norm_num)
    linarith [hieq, hmv2, htam]

set_option maxHeartbeats 1000000 in
/-- C3 (amended): for every configuration built by `PrayerConf.__init__`
from a registry method (integer selector 1 to 9) at a latitude within
`[-90, 90]`, and every date and correction for which all five guarded
computations complete, the values satisfy
Fajr < Sunrise < Dhuhr < Asr < Maghrib < Isha.  (The further claim
`Isha < Midnight` is refuted by `prayer_times_ordering_cex`.) -/
theorem prayer_times_ordering_amended (lon lat tz : ℚ) (ref madhab : ℤ) (dst : Bool)
    (conf : PrayerConf) (hconf : mkPrayerConf lon lat tz ref madhab dst = some conf)
    (href1 : 1 ≤ ref) (href2 : ref ≤ 9)
    (hlat1 : -90 ≤ lat) (hlat2 : lat ≤ 90)
    (dat : GregorianDate) (c : ℤ) (f sr a m i : ℝ)
    (hf : fajrTime conf dat = some f) (hsr : sherookTime conf dat = some sr)
    (ha : asrTime conf dat = some a) (hm : maghrebTime conf dat = some m)
    (hi : ishaaTime conf dat c = some i) :
    f < sr ∧ sr < dohrTime conf dat ∧ dohrTime conf dat < a ∧ a < m ∧ m < i := by
  unfold mkPrayerConf at hconf
  interval_cases ref
  · rw [show selectMethod 1 = some ⟨1, .angle 18, .angle 18⟩ from rfl] at hconf
    have hc := Option.some.inj hconf
    subst hc
    exact ordering_core _ dat c hlat1 hlat2 rfl rfl
      ⟨18 + 90, rfl, by norm_num, by norm_num⟩
      (Or.inl ⟨18 + 90, rfl, by norm_num, by norm_num⟩) f sr a m i hf hsr ha hm hi
  · rw [show selectMethod 2 = some ⟨2, .angle 18, .angle 17⟩ from rfl] at hconf
    have hc := Option.some.inj hconf
    subst hc
    exact ordering_core _ dat c hlat1 hlat2 rfl rfl
      ⟨18 + 90, rfl, by norm_num, by norm_num⟩
      (Or.inl ⟨17 + 90, rfl, by norm_num, by norm_num⟩) f sr a m i hf hsr ha hm hi
  · rw [show selectMethod 3 = some ⟨3, .angle 19.5, .angle 17.5⟩ from rfl] at hconf
    have hc := Option.some.inj hconf
    subst hc
    exact ordering_core _ dat c hlat1 hlat2 rfl rfl
      ⟨19.5 + 90, rfl, by norm_num, by norm_num⟩
      (Or.inl ⟨17.5 + 90, rfl, by norm_num, by norm_num⟩) f sr a m i hf hsr ha hm hi
  · rw [show selectMethod 4 = some ⟨4, .angle 18.5, .fixed 90 120⟩ from rfl] at hconf
    have hc := Option.some.inj hconf
    subst hc
    exact ordering_core _ dat c hlat1 hlat2 rfl rfl
      ⟨18.5 + 90, rfl, by norm_num, by norm_num⟩
      (Or.inr ⟨90, 120, rfl, by norm_num, by norm_num⟩) f sr a m i hf hsr ha hm hi
  · rw [show selectMethod 5 = some ⟨5, .angle 15, .angle 15⟩ from rfl] at hconf
    have hc := Option.some.inj hconf
    subst hc
    exact ordering_core _ dat c hlat1 hlat2 rfl rfl
      ⟨15 + 90, rfl, by norm_num, by norm_num⟩
      (Or.inl ⟨15 + 90, rfl, by norm_num, by norm_num⟩) f sr a m i hf hsr ha hm hi
  · rw [show selectMethod 6 = some ⟨6, .angle 12, .angle 12⟩ from rfl] at hconf
    have hc := Option.some.inj hconf
    subst hc
    exact ordering_core _ dat c hlat1 hlat2 rfl rfl
      ⟨12 + 90, rfl, by norm_num, by norm_num⟩
      (Or.inl ⟨12 + 90, rfl, by norm_num, by norm_num⟩) f sr a m i hf hsr ha hm hi
  · rw [show selectMethod 7 = some ⟨7, .angle 20, .angle 18⟩ from rfl] at hconf
    have hc := Option.some.inj hconf
    subst hc
    exact ordering_core _ dat c hlat1 hlat2 rfl rfl
      ⟨20 + 90, rfl, by norm_num, by norm_num⟩
      (Or.inl ⟨18 + 90, rfl, by norm_num, by norm_num⟩) f sr a m i hf hsr ha hm hi
  · rw [show selectMethod 8 = some ⟨8, .angle 16, .angle 15⟩ from rfl] at hconf
    have hc := Option.some.inj hconf
    subst hc
    exact ordering_core _ dat c hlat1 hlat2 rfl rfl
      ⟨16 + 90, rfl, by norm_num, by norm_num⟩
      (Or.inl ⟨15 + 90, rfl, by norm_num, by norm_num⟩) f sr a m i hf hsr ha hm hi
  · rw [show selectMethod 9 = some ⟨9, .angle 19.5, .fixed 90 90⟩ from rfl] at hconf
    have hc := Option.some.inj hconf
    subst hc
    exact ordering_core _ dat c hlat1 hlat2 rfl rfl
      ⟨19.5 + 90, rfl, by norm_num, by norm_num⟩
      (Or.inr ⟨90, 90, rfl, by norm_num, by norm_num⟩) f sr a m i hf hsr ha hm hi

/-- Cosine of the stored method-4 Fajr angle 108.5 degrees is at most
one half in absolute value. -/
theorem dcos_fajr4_sq_le : dcos ((18.5 + 90 : ℚ) : ℝ) ^ 2 ≤ 1 / 4 := by
  have hc : ((18.5 + 90 : ℚ) : ℝ) = 108.5 := by norm_num
  rw [hc]
  unfold dcos
  have hu : (108.5 : ℝ) * Real.pi / 180 = (108.5 - 90) * Real.pi / 180 + Real.pi / 2 := by
    ring
  rw [hu, Real.cos_add_pi_div_two]
  have hupos : 0 < (108.5 - 90 : ℝ) * Real.pi / 180 := by nlinarith [Real.pi_pos]
  have hub : (108.5 - 90 : ℝ) * Real.pi / 180 < 0.323 := by nlinarith [Real.pi_lt_d6]
  have hs1 : Real.sin ((108.5 - 90 : ℝ) * Real.pi / 180) < 0.323 :=
    lt_trans (Real.sin_lt hupos) hub
  have hs2 : 0 < Real.sin ((108.5 - 90 : ℝ) * Real.pi / 180) :=
    Real.sin_pos_of_pos_of_lt_pi hupos (by nlinarith [Real.pi_gt_d6])
  nlinarith

theorem fixedConf_sherook_eval :
    sherookTime fixedConf ⟨1999, 12, 20⟩ =
      some (dohrTime fixedConf ⟨1999, 12, 20⟩
        - hourAngle (sVal fixedConf ((fixedConf.sherookAngle : ℚ) : ℝ)
            (declVal (jdOf ⟨1999, 12, 20⟩)))) := by
  have hx2 : declX (jdOf ⟨1999, 12, 20⟩) ^ 2 < 1 / 2 :=
    declX_sq_lt_half _ declEpsilon_ramadan_bounds.1 declEpsilon_ramadan_bounds.2
  have hx1 : declX (jdOf ⟨1999, 12, 20⟩) ^ 2 < 1 := by nlinarith
  have hden : dcos ((fixedConf.latitude : ℚ) : ℝ) * dcos (declVal (jdOf ⟨1999, 12, 20⟩)) ≠ 0 := by
    have hc : ((fixedConf.latitude : ℚ) : ℝ) = 0 := by norm_num [fixedConf]
    rw [hc, dcos_zero, one_mul]
    exact (dcos_declVal_pos _ hx1).ne'
  have hcos2 : dcos ((fixedConf.sherookAngle : ℚ) : ℝ) ^ 2 ≤ 1 / 4 := dcos_sherook_sq_le
  have hs : sVal fixedConf ((fixedConf.sherookAngle : ℚ) : ℝ)
      (declVal (jdOf ⟨1999, 12, 20⟩)) ^ 2 < 1 :=
    sVal_lat0_sq_lt_one fixedConf rfl _ _ hx2 hcos2
  unfold sherookTime
  rw [timeForAngle_eval fixedConf (jdOf ⟨1999, 12, 20⟩)
    ((fixedConf.sherookAngle : ℚ) : ℝ) hx1 hden hs]
  rfl

theorem fixedConf_fajr_eval :
    fajrTime fixedConf ⟨1999, 12, 20⟩ =
      some (dohrTime fixedConf ⟨1999, 12, 20⟩
        - hourAngle (sVal fixedConf ((18.5 + 90 : ℚ) : ℝ)
            (declVal (jdOf ⟨1999, 12, 20⟩)))) := by
  have hx2 : declX (jdOf ⟨1999, 12, 20⟩) ^ 2 < 1 / 2 :=
    declX_sq_lt_half _ declEpsilon_ramadan_bounds.1 declEpsilon_ramadan_bounds.2
  have hx1 : declX (jdOf ⟨1999, 12, 20⟩) ^ 2 < 1 := by nlinarith
  have hden : dcos ((fixedConf.latitude : ℚ) : ℝ) * dcos (declVal (jdOf ⟨1999, 12, 20⟩)) ≠ 0 := by
    have hc : ((fixedConf.latitude : ℚ) : ℝ) = 0 := by norm_num [fixedConf]
    rw [hc, dcos_zero, one_mul]
    exact (dcos_declVal_pos _ hx1).ne'
  have hs : sVal fixedConf ((18.5 + 90 : ℚ) : ℝ)
      (declVal (jdOf ⟨1999, 12, 20⟩)) ^ 2 < 1 :=
    sVal_lat0_sq_lt_one fixedConf rfl _ _ hx2 dcos_fajr4_sq_le
  show (timeForAngle fixedConf (jdOf ⟨1999, 12, 20⟩) ((18.5 + 90 : ℚ) : ℝ)).map
      (fun t => dohrTime fixedConf ⟨1999, 12, 20⟩ - t) = _
  rw [timeForAngle_eval fixedConf (jdOf ⟨1999, 12, 20⟩) ((18.5 + 90 : ℚ) : ℝ) hx1 hden hs]
  rfl

theorem fixedConf_ishaa_eval :
    ishaaTime fixedConf ⟨1999, 12, 20⟩ 0 =
      some (((120 : ℚ) : ℝ) / 60 + dohrTime fixedConf ⟨1999, 12, 20⟩
        + hourAngle (sVal fixedConf ((fixedConf.maghrebAngle : ℚ) : ℝ)
            (declVal (jdOf ⟨1999, 12, 20⟩)))) := by
  have hx2 : declX (jdOf ⟨1999, 12, 20⟩) ^ 2 < 1 / 2 :=
    declX_sq_lt_half _ declEpsilon_ramadan_bounds.1 declEpsilon_ramadan_bounds.2
  have hx1 : declX (jdOf ⟨1999, 12, 20⟩) ^ 2 < 1 := by nlinarith
  have hden : dcos ((fixedConf.latitude : ℚ) : ℝ) * dcos (declVal (jdOf ⟨1999, 12, 20⟩)) ≠ 0 := by
    have hc : ((fixedConf.latitude : ℚ) : ℝ) = 0 := by norm_num [fixedConf]
    rw [hc, dcos_zero, one_mul]
    exact (dcos_declVal_pos _ hx1).ne'
  have hcos2 : dcos ((fixedConf.maghrebAngle : ℚ) : ℝ) ^ 2 ≤ 1 / 4 := dcos_sherook_sq_le
  have hs : sVal fixedConf ((fixedConf.maghrebAngle : ℚ) : ℝ)
      (declVal (jdOf ⟨1999, 12, 20⟩)) ^ 2 < 1 :=
    sVal_lat0_sq_lt_one fixedConf rfl _ _ hx2 hcos2
  show (timeForAngle fixedConf (jdOf ⟨1999, 12, 20⟩) ((fixedConf.maghrebAngle : ℚ) : ℝ)).map
      (fun t => (if hijriMonthOf 1999 12 20 0 = 9
        then ((120 : ℚ) : ℝ) / 60 else ((90 : ℚ) : ℝ) / 60)
        + dohrTime fixedConf ⟨1999, 12, 20⟩ + t) = _
  rw [if_pos (show hijriMonthOf 1999 12 20 0 = 9 from by decide)]
  rw [timeForAngle_eval fixedConf (jdOf ⟨1999, 12, 20⟩)
    ((fixedConf.maghrebAngle : ℚ) : ℝ) hx1 hden hs]
  rfl

/-- C3 witness (for the amended chain): method 4 at the equator on
1999-12-20, with every computation completing, satisfies the full
Fajr < Sunrise < Dhuhr < Asr < Maghrib < Isha chain. -/
theorem prayer_times_ordering_amended_witness :
    (dohrTime fixedConf ⟨1999, 12, 20⟩
        - hourAngle (sVal fixedConf ((18.5 + 90 : ℚ) : ℝ) (declVal (jdOf ⟨1999, 12, 20⟩))))
      < (dohrTime fixedConf ⟨1999, 12, 20⟩
        - hourAngle (sVal fixedConf ((fixedConf.sherookAngle : ℚ) : ℝ)
            (declVal (jdOf ⟨1999, 12, 20⟩)))) ∧
    (dohrTime fixedConf ⟨1999, 12, 20⟩
        - hourAngle (sVal fixedConf ((fixedConf.sherookAngle : ℚ) : ℝ)
            (declVal (jdOf ⟨1999, 12, 20⟩))))
      < dohrTime fixedConf ⟨1999, 12, 20⟩ ∧
    dohrTime fixedConf ⟨1999, 12, 20⟩
      < (dohrTime fixedConf ⟨1999, 12, 20⟩
        + hourAngle (sVal fixedConf (asrAngleVal fixedConf (declVal (jdOf ⟨1999, 12, 20⟩)))
            (declVal (jdOf ⟨1999, 12, 20⟩)))) ∧
    (dohrTime fixedConf ⟨1999, 12, 20⟩
        + hourAngle (sVal fixedConf (asrAngleVal fixedConf (declVal (jdOf ⟨1999, 12, 20⟩)))
            (declVal (jdOf ⟨1999, 12, 20⟩))))
      < (dohrTime fixedConf ⟨1999, 12, 20⟩
        + hourAngle (sVal fixedConf ((fixedConf.maghrebAngle : ℚ) : ℝ)
            (declVal (jdOf ⟨1999, 12, 20⟩)))) ∧
    (dohrTime fixedConf ⟨1999, 12, 20⟩
        + hourAngle (sVal fixedConf ((fixedConf.maghrebAngle : ℚ) : ℝ)
            (declVal (jdOf ⟨1999, 12, 20⟩))))
      < ((120 : ℚ) : ℝ) / 60 + dohrTime fixedConf ⟨1999, 12, 20⟩
        + hourAngle (sVal fixedConf ((fixedConf.maghrebAngle : ℚ) : ℝ)
            (declVal (jdOf ⟨1999, 12, 20⟩))) := by
  have hx2 : declX (jdOf ⟨1999, 12, 20⟩) ^ 2 < 1 / 2 :=
    declX_sq_lt_half _ declEpsilon_ramadan_bounds.1 declEpsilon_ramadan_bounds.2
  exact prayer_times_ordering_amended 0 0 0 4 1 false fixedConf mkPrayerConf_fixed_eval
    (by norm_num) (by norm_num) (by norm_num) (by norm_num) ⟨1999, 12, 20⟩ 0 _ _ _ _ _
    fixedConf_fajr_eval fixedConf_sherook_eval
    (asrTime_lat0_eval fixedConf ⟨1999, 12, 20⟩ rfl (Nat.le_refl 1) hx2 declX_ramadan_ne)
    fixedConf_maghreb_eval fixedConf_ishaa_eval
